import Mathlib

/-!
Verification development for the `ho-api-rust-sdk` crate (`src/lib.rs`): a
signed, encrypted HTTP API client.  The Rust source is shallowly embedded:

* machine bytes (`u8`) are `Fin 256`; 32-bit words are `Nat` reduced with
  explicit `% 2 ^ 32`;
* the external crates the source calls into are modelled by their documented
  semantics: `sha1` (FIPS 180 SHA-1), `aes`/`block_modes`
  (FIPS 197 AES-256, CBC mode, PKCS7 padding), `hex`, `serde_json`
  (JSON values restricted to integer numbers), `chrono`/`chrono-tz`
  (instants as epoch milliseconds plus a display offset), and `reqwest`
  (responses as a status code plus a body string);
* the per-call sources of nondeterminism (`Uuid::new_v4`, `Utc::now`, the
  network response) are explicit parameters of the embedded `send`;
* fallible steps return `Except`, and the one reachable `panic!`
  (`Result::unwrap_err` on an `Ok`) is made explicit in the result type.

Known-answer sanity theorems (SHA-1 of "abc", the FIPS-197 AES-256 block
vector) pin the crypto embeddings to the real algorithms.
-/

set_option maxRecDepth 8000

namespace HoApi

/-- A `u8` machine byte. -/
abbrev Byte := Fin 256

/-- Bitwise XOR on bytes, as on Rust `u8`. -/
def xor8 (a b : Byte) : Byte :=
  ⟨a.val ^^^ b.val, by
    have h : a.val ^^^ b.val < 2 ^ 8 := Nat.xor_lt_two_pow a.isLt b.isLt
    simpa using h⟩

/-- Multiplication by `x` in GF(2^8) modulo the AES polynomial `x^8+x^4+x^3+x+1`:
`(a << 1) ^ (if a & 0x80 then 0x1B else 0)`, truncated to a byte. -/
def xtime (a : Byte) : Byte :=
  ⟨((2 * a.val) ^^^ (if 128 ≤ a.val then 0x1B else 0)) % 256, Nat.mod_lt _ (by norm_num)⟩

/-- GF(2^8) multiplication by constant 2 (AES MixColumns coefficient). -/
def gm2 (a : Byte) : Byte := xtime a

/-- GF(2^8) multiplication by constant 3. -/
def gm3 (a : Byte) : Byte := xor8 (xtime a) a

/-- GF(2^8) multiplication by constant 9 (InvMixColumns coefficient). -/
def gm9 (a : Byte) : Byte := xor8 (xtime (xtime (xtime a))) a

/-- GF(2^8) multiplication by constant 11. -/
def gm11 (a : Byte) : Byte := xor8 (xtime (xtime (xtime a))) (xor8 (xtime a) a)

/-- GF(2^8) multiplication by constant 13. -/
def gm13 (a : Byte) : Byte := xor8 (xtime (xtime (xtime a))) (xor8 (xtime (xtime a)) a)

/-- GF(2^8) multiplication by constant 14. -/
def gm14 (a : Byte) : Byte := xor8 (xtime (xtime (xtime a))) (xor8 (xtime (xtime a)) (xtime a))

/-- First MixColumns output byte of a column: `2a ⊕ 3b ⊕ c ⊕ d`. -/
def mc0 (a b c d : Byte) : Byte := xor8 (xor8 (xor8 (gm2 a) (gm3 b)) c) d

/-- Second MixColumns output byte: `a ⊕ 2b ⊕ 3c ⊕ d`. -/
def mc1 (a b c d : Byte) : Byte := xor8 (xor8 (xor8 a (gm2 b)) (gm3 c)) d

/-- Third MixColumns output byte: `a ⊕ b ⊕ 2c ⊕ 3d`. -/
def mc2 (a b c d : Byte) : Byte := xor8 (xor8 (xor8 a b) (gm2 c)) (gm3 d)

/-- Fourth MixColumns output byte: `3a ⊕ b ⊕ c ⊕ 2d`. -/
def mc3 (a b c d : Byte) : Byte := xor8 (xor8 (xor8 (gm3 a) b) c) (gm2 d)

/-- First InvMixColumns output byte: `14a ⊕ 11b ⊕ 13c ⊕ 9d`. -/
def im0 (a b c d : Byte) : Byte := xor8 (xor8 (xor8 (gm14 a) (gm11 b)) (gm13 c)) (gm9 d)

/-- Second InvMixColumns output byte: `9a ⊕ 14b ⊕ 11c ⊕ 13d`. -/
def im1 (a b c d : Byte) : Byte := xor8 (xor8 (xor8 (gm9 a) (gm14 b)) (gm11 c)) (gm13 d)

/-- Third InvMixColumns output byte: `13a ⊕ 9b ⊕ 14c ⊕ 11d`. -/
def im2 (a b c d : Byte) : Byte := xor8 (xor8 (xor8 (gm13 a) (gm9 b)) (gm14 c)) (gm11 d)

/-- Fourth InvMixColumns output byte: `11a ⊕ 13b ⊕ 9c ⊕ 14d`. -/
def im3 (a b c d : Byte) : Byte := xor8 (xor8 (xor8 (gm11 a) (gm13 b)) (gm9 c)) (gm14 d)

theorem xor8_assoc (a b c : Byte) : xor8 (xor8 a b) c = xor8 a (xor8 b c) := by
  simp [xor8, Nat.xor_assoc]

theorem xor8_comm (a b : Byte) : xor8 a b = xor8 b a := by
  simp [xor8, Nat.xor_comm]

instance : Std.Associative xor8 := ⟨xor8_assoc⟩

instance : Std.Commutative xor8 := ⟨xor8_comm⟩

theorem xor8_left_comm (a b c : Byte) : xor8 a (xor8 b c) = xor8 b (xor8 a c) := by
  rw [← xor8_assoc, xor8_comm a b, xor8_assoc]

theorem xor8_zero (a : Byte) : xor8 a 0 = a := by
  apply Fin.ext
  simp [xor8]

theorem zero_xor8 (a : Byte) : xor8 0 a = a := by
  rw [xor8_comm, xor8_zero]

theorem xor8_cancel (k a : Byte) : xor8 (xor8 a k) k = a := by
  apply Fin.ext
  simp [xor8, Nat.xor_assoc]

theorem nat_xor_mod_two_pow (x y k : ℕ) : (x ^^^ y) % 2 ^ k = (x % 2 ^ k) ^^^ (y % 2 ^ k) := by
  apply Nat.eq_of_testBit_eq
  intro i
  simp [Nat.testBit_mod_two_pow, Nat.testBit_xor, Bool.and_xor_distrib_left]

theorem nat_two_mul_xor (x y : ℕ) : 2 * (x ^^^ y) = 2 * x ^^^ 2 * y := by
  have h : ∀ z : ℕ, 2 * z = z <<< 1 := by
    intro z
    simp [Nat.shiftLeft_eq, Nat.mul_comm]
  rw [h, h, h]
  apply Nat.eq_of_testBit_eq
  intro i
  simp [Nat.testBit_shiftLeft, Nat.testBit_xor, Bool.and_xor_distrib_left]

theorem nat_xor_left_comm (a b c : ℕ) : a ^^^ (b ^^^ c) = b ^^^ (a ^^^ c) := by
  rw [← Nat.xor_assoc, Nat.xor_comm a b, Nat.xor_assoc]

theorem nat_xor_cancel_left (a b : ℕ) : a ^^^ (a ^^^ b) = b := by
  rw [← Nat.xor_assoc, Nat.xor_self, Nat.zero_xor]

theorem nat_xor_mod_256 (x y : ℕ) : (x ^^^ y) % 256 = x % 256 ^^^ y % 256 := by
  simpa using nat_xor_mod_two_pow x y 8

theorem hi_testBit (x : ℕ) (hx : x < 256) : Nat.testBit x 7 = decide (128 ≤ x) := by
  rw [Nat.testBit_to_div_mod, show (2 : ℕ) ^ 7 = 128 from by norm_num]
  simp only [decide_eq_decide]
  omega

theorem hi_xor (a b : ℕ) (ha : a < 256) (hb : b < 256) :
    decide (128 ≤ (a ^^^ b)) = (decide (128 ≤ a)).xor (decide (128 ≤ b)) := by
  have hxy : a ^^^ b < 256 := by
    have h : a ^^^ b < 2 ^ 8 := Nat.xor_lt_two_pow (by simpa using ha) (by simpa using hb)
    simpa using h
  rw [← hi_testBit _ hxy, ← hi_testBit _ ha, ← hi_testBit _ hb, Nat.testBit_xor]

theorem xtime_xor (a b : Byte) : xtime (xor8 a b) = xor8 (xtime a) (xtime b) := by
  apply Fin.ext
  have hhi := hi_xor a.val b.val a.isLt b.isLt
  simp only [xtime, xor8]
  rcases Nat.lt_or_ge a.val 128 with ha | ha <;> rcases Nat.lt_or_ge b.val 128 with hb | hb
  · simp only [Nat.not_le.2 ha, Nat.not_le.2 hb, decide_eq_false, Bool.xor_false] at hhi
    have h3 := of_decide_eq_false hhi
    simp only [if_neg h3, if_neg (Nat.not_le.2 ha), if_neg (Nat.not_le.2 hb), Nat.xor_zero]
    rw [nat_two_mul_xor, nat_xor_mod_256]
  · simp only [Nat.not_le.2 ha, hb, decide_eq_false, decide_eq_true, Bool.false_xor] at hhi
    have h3 := of_decide_eq_true hhi
    simp only [if_pos h3, if_neg (Nat.not_le.2 ha), if_pos hb, Nat.xor_zero]
    rw [nat_two_mul_xor, nat_xor_mod_256, nat_xor_mod_256,
      nat_xor_mod_256 (2 * b.val)]
    simp [Nat.xor_assoc, Nat.xor_comm, nat_xor_left_comm, nat_xor_cancel_left]
  · simp only [ha, Nat.not_le.2 hb, decide_eq_false, decide_eq_true, Bool.xor_false] at hhi
    have h3 := of_decide_eq_true hhi
    simp only [if_pos h3, if_pos ha, if_neg (Nat.not_le.2 hb), Nat.xor_zero]
    rw [nat_two_mul_xor, nat_xor_mod_256, nat_xor_mod_256,
      nat_xor_mod_256 (2 * a.val)]
    simp [Nat.xor_assoc, Nat.xor_comm, nat_xor_left_comm, nat_xor_cancel_left]
  · simp only [ha, hb, decide_eq_true, Bool.xor_self] at hhi
    have h3 := of_decide_eq_false hhi
    simp only [if_neg h3, if_pos ha, if_pos hb, Nat.xor_zero]
    rw [nat_two_mul_xor, nat_xor_mod_256, nat_xor_mod_256 (2 * a.val),
      nat_xor_mod_256 (2 * b.val)]
    simp [Nat.xor_assoc, Nat.xor_comm, nat_xor_left_comm, nat_xor_cancel_left,
      Nat.xor_self, Nat.xor_zero]

theorem coefL_id : ∀ x : Byte,
    xor8 (xor8 (xor8 (gm14 (gm2 x)) (gm11 x)) (gm13 x)) (gm9 (gm3 x)) = x := by decide

theorem coefL_z1 : ∀ x : Byte,
    xor8 (xor8 (xor8 (gm14 (gm3 x)) (gm11 (gm2 x))) (gm13 x)) (gm9 x) = 0 := by decide

theorem coefL_z2 : ∀ x : Byte,
    xor8 (xor8 (xor8 (gm14 x) (gm11 (gm3 x))) (gm13 (gm2 x))) (gm9 x) = 0 := by decide

theorem coefL_z3 : ∀ x : Byte,
    xor8 (xor8 (xor8 (gm14 x) (gm11 x)) (gm13 (gm3 x))) (gm9 (gm2 x)) = 0 := by decide

theorem gm2_xor (a b : Byte) : gm2 (xor8 a b) = xor8 (gm2 a) (gm2 b) := xtime_xor a b

theorem gm3_xor (a b : Byte) : gm3 (xor8 a b) = xor8 (gm3 a) (gm3 b) := by
  simp [gm3, xtime_xor, xor8_assoc, xor8_comm, xor8_left_comm]

theorem gm9_xor (a b : Byte) : gm9 (xor8 a b) = xor8 (gm9 a) (gm9 b) := by
  simp [gm9, xtime_xor, xor8_assoc, xor8_comm, xor8_left_comm]

theorem gm11_xor (a b : Byte) : gm11 (xor8 a b) = xor8 (gm11 a) (gm11 b) := by
  simp [gm11, xtime_xor, xor8_assoc, xor8_comm, xor8_left_comm]

theorem gm13_xor (a b : Byte) : gm13 (xor8 a b) = xor8 (gm13 a) (gm13 b) := by
  simp [gm13, xtime_xor, xor8_assoc, xor8_comm, xor8_left_comm]

theorem gm14_xor (a b : Byte) : gm14 (xor8 a b) = xor8 (gm14 a) (gm14 b) := by
  simp [gm14, xtime_xor, xor8_assoc, xor8_comm, xor8_left_comm]

theorem im_mc_0 (a b c d : Byte) :
    im0 (mc0 a b c d) (mc1 a b c d) (mc2 a b c d) (mc3 a b c d) = a := by
  simp only [im0, mc0, mc1, mc2, mc3, gm14_xor, gm11_xor, gm13_xor, gm9_xor]
  calc _ = xor8 (xor8 (xor8
        (xor8 (xor8 (xor8 (gm14 (gm2 a)) (gm11 a)) (gm13 a)) (gm9 (gm3 a)))
        (xor8 (xor8 (xor8 (gm14 (gm3 b)) (gm11 (gm2 b))) (gm13 b)) (gm9 b)))
        (xor8 (xor8 (xor8 (gm14 c) (gm11 (gm3 c))) (gm13 (gm2 c))) (gm9 c)))
        (xor8 (xor8 (xor8 (gm14 d) (gm11 d)) (gm13 (gm3 d))) (gm9 (gm2 d))) := by ac_rfl
    _ = a := by rw [coefL_id, coefL_z1, coefL_z2, coefL_z3, xor8_zero, xor8_zero, xor8_zero]

theorem im_mc_1 (a b c d : Byte) :
    im1 (mc0 a b c d) (mc1 a b c d) (mc2 a b c d) (mc3 a b c d) = b := by
  simp only [im1, mc0, mc1, mc2, mc3, gm14_xor, gm11_xor, gm13_xor, gm9_xor]
  calc _ = xor8 (xor8 (xor8
        (xor8 (xor8 (xor8 (gm14 a) (gm11 a)) (gm13 (gm3 a))) (gm9 (gm2 a)))
        (xor8 (xor8 (xor8 (gm14 (gm2 b)) (gm11 b)) (gm13 b)) (gm9 (gm3 b))))
        (xor8 (xor8 (xor8 (gm14 (gm3 c)) (gm11 (gm2 c))) (gm13 c)) (gm9 c)))
        (xor8 (xor8 (xor8 (gm14 d) (gm11 (gm3 d))) (gm13 (gm2 d))) (gm9 d)) := by ac_rfl
    _ = b := by
      rw [coefL_id, coefL_z1, coefL_z2, coefL_z3, xor8_zero, xor8_zero, zero_xor8]

theorem im_mc_2 (a b c d : Byte) :
    im2 (mc0 a b c d) (mc1 a b c d) (mc2 a b c d) (mc3 a b c d) = c := by
  simp only [im2, mc0, mc1, mc2, mc3, gm14_xor, gm11_xor, gm13_xor, gm9_xor]
  calc _ = xor8 (xor8 (xor8
        (xor8 (xor8 (xor8 (gm14 a) (gm11 (gm3 a))) (gm13 (gm2 a))) (gm9 a))
        (xor8 (xor8 (xor8 (gm14 b) (gm11 b)) (gm13 (gm3 b))) (gm9 (gm2 b))))
        (xor8 (xor8 (xor8 (gm14 (gm2 c)) (gm11 c)) (gm13 c)) (gm9 (gm3 c))))
        (xor8 (xor8 (xor8 (gm14 (gm3 d)) (gm11 (gm2 d))) (gm13 d)) (gm9 d)) := by ac_rfl
    _ = c := by
      rw [coefL_id, coefL_z1, coefL_z2, coefL_z3, xor8_zero, zero_xor8, zero_xor8]

theorem im_mc_3 (a b c d : Byte) :
    im3 (mc0 a b c d) (mc1 a b c d) (mc2 a b c d) (mc3 a b c d) = d := by
  simp only [im3, mc0, mc1, mc2, mc3, gm14_xor, gm11_xor, gm13_xor, gm9_xor]
  calc _ = xor8 (xor8 (xor8
        (xor8 (xor8 (xor8 (gm14 (gm3 a)) (gm11 (gm2 a))) (gm13 a)) (gm9 a))
        (xor8 (xor8 (xor8 (gm14 b) (gm11 (gm3 b))) (gm13 (gm2 b))) (gm9 b)))
        (xor8 (xor8 (xor8 (gm14 c) (gm11 c)) (gm13 (gm3 c))) (gm9 (gm2 c))))
        (xor8 (xor8 (xor8 (gm14 (gm2 d)) (gm11 d)) (gm13 d)) (gm9 (gm3 d))) := by ac_rfl
    _ = d := by
      rw [coefL_id, coefL_z1, coefL_z2, coefL_z3, zero_xor8, zero_xor8, zero_xor8]

/-- The AES S-box (FIPS 197, Fig. 7). -/
def sboxT : List Byte := [
  0x63, 0x7c, 0x77, 0x7b, 0xf2, 0x6b, 0x6f, 0xc5, 0x30, 0x01, 0x67, 0x2b, 0xfe, 0xd7, 0xab, 0x76,
  0xca, 0x82, 0xc9, 0x7d, 0xfa, 0x59, 0x47, 0xf0, 0xad, 0xd4, 0xa2, 0xaf, 0x9c, 0xa4, 0x72, 0xc0,
  0xb7, 0xfd, 0x93, 0x26, 0x36, 0x3f, 0xf7, 0xcc, 0x34, 0xa5, 0xe5, 0xf1, 0x71, 0xd8, 0x31, 0x15,
  0x04, 0xc7, 0x23, 0xc3, 0x18, 0x96, 0x05, 0x9a, 0x07, 0x12, 0x80, 0xe2, 0xeb, 0x27, 0xb2, 0x75,
  0x09, 0x83, 0x2c, 0x1a, 0x1b, 0x6e, 0x5a, 0xa0, 0x52, 0x3b, 0xd6, 0xb3, 0x29, 0xe3, 0x2f, 0x84,
  0x53, 0xd1, 0x00, 0xed, 0x20, 0xfc, 0xb1, 0x5b, 0x6a, 0xcb, 0xbe, 0x39, 0x4a, 0x4c, 0x58, 0xcf,
  0xd0, 0xef, 0xaa, 0xfb, 0x43, 0x4d, 0x33, 0x85, 0x45, 0xf9, 0x02, 0x7f, 0x50, 0x3c, 0x9f, 0xa8,
  0x51, 0xa3, 0x40, 0x8f, 0x92, 0x9d, 0x38, 0xf5, 0xbc, 0xb6, 0xda, 0x21, 0x10, 0xff, 0xf3, 0xd2,
  0xcd, 0x0c, 0x13, 0xec, 0x5f, 0x97, 0x44, 0x17, 0xc4, 0xa7, 0x7e, 0x3d, 0x64, 0x5d, 0x19, 0x73,
  0x60, 0x81, 0x4f, 0xdc, 0x22, 0x2a, 0x90, 0x88, 0x46, 0xee, 0xb8, 0x14, 0xde, 0x5e, 0x0b, 0xdb,
  0xe0, 0x32, 0x3a, 0x0a, 0x49, 0x06, 0x24, 0x5c, 0xc2, 0xd3, 0xac, 0x62, 0x91, 0x95, 0xe4, 0x79,
  0xe7, 0xc8, 0x37, 0x6d, 0x8d, 0xd5, 0x4e, 0xa9, 0x6c, 0x56, 0xf4, 0xea, 0x65, 0x7a, 0xae, 0x08,
  0xba, 0x78, 0x25, 0x2e, 0x1c, 0xa6, 0xb4, 0xc6, 0xe8, 0xdd, 0x74, 0x1f, 0x4b, 0xbd, 0x8b, 0x8a,
  0x70, 0x3e, 0xb5, 0x66, 0x48, 0x03, 0xf6, 0x0e, 0x61, 0x35, 0x57, 0xb9, 0x86, 0xc1, 0x1d, 0x9e,
  0xe1, 0xf8, 0x98, 0x11, 0x69, 0xd9, 0x8e, 0x94, 0x9b, 0x1e, 0x87, 0xe9, 0xce, 0x55, 0x28, 0xdf,
  0x8c, 0xa1, 0x89, 0x0d, 0xbf, 0xe6, 0x42, 0x68, 0x41, 0x99, 0x2d, 0x0f, 0xb0, 0x54, 0xbb, 0x16]

/-- The AES inverse S-box (FIPS 197, Fig. 14). -/
def invSboxT : List Byte := [
  0x52, 0x09, 0x6a, 0xd5, 0x30, 0x36, 0xa5, 0x38, 0xbf, 0x40, 0xa3, 0x9e, 0x81, 0xf3, 0xd7, 0xfb,
  0x7c, 0xe3, 0x39, 0x82, 0x9b, 0x2f, 0xff, 0x87, 0x34, 0x8e, 0x43, 0x44, 0xc4, 0xde, 0xe9, 0xcb,
  0x54, 0x7b, 0x94, 0x32, 0xa6, 0xc2, 0x23, 0x3d, 0xee, 0x4c, 0x95, 0x0b, 0x42, 0xfa, 0xc3, 0x4e,
  0x08, 0x2e, 0xa1, 0x66, 0x28, 0xd9, 0x24, 0xb2, 0x76, 0x5b, 0xa2, 0x49, 0x6d, 0x8b, 0xd1, 0x25,
  0x72, 0xf8, 0xf6, 0x64, 0x86, 0x68, 0x98, 0x16, 0xd4, 0xa4, 0x5c, 0xcc, 0x5d, 0x65, 0xb6, 0x92,
  0x6c, 0x70, 0x48, 0x50, 0xfd, 0xed, 0xb9, 0xda, 0x5e, 0x15, 0x46, 0x57, 0xa7, 0x8d, 0x9d, 0x84,
  0x90, 0xd8, 0xab, 0x00, 0x8c, 0xbc, 0xd3, 0x0a, 0xf7, 0xe4, 0x58, 0x05, 0xb8, 0xb3, 0x45, 0x06,
  0xd0, 0x2c, 0x1e, 0x8f, 0xca, 0x3f, 0x0f, 0x02, 0xc1, 0xaf, 0xbd, 0x03, 0x01, 0x13, 0x8a, 0x6b,
  0x3a, 0x91, 0x11, 0x41, 0x4f, 0x67, 0xdc, 0xea, 0x97, 0xf2, 0xcf, 0xce, 0xf0, 0xb4, 0xe6, 0x73,
  0x96, 0xac, 0x74, 0x22, 0xe7, 0xad, 0x35, 0x85, 0xe2, 0xf9, 0x37, 0xe8, 0x1c, 0x75, 0xdf, 0x6e,
  0x47, 0xf1, 0x1a, 0x71, 0x1d, 0x29, 0xc5, 0x89, 0x6f, 0xb7, 0x62, 0x0e, 0xaa, 0x18, 0xbe, 0x1b,
  0xfc, 0x56, 0x3e, 0x4b, 0xc6, 0xd2, 0x79, 0x20, 0x9a, 0xdb, 0xc0, 0xfe, 0x78, 0xcd, 0x5a, 0xf4,
  0x1f, 0xdd, 0xa8, 0x33, 0x88, 0x07, 0xc7, 0x31, 0xb1, 0x12, 0x10, 0x59, 0x27, 0x80, 0xec, 0x5f,
  0x60, 0x51, 0x7f, 0xa9, 0x19, 0xb5, 0x4a, 0x0d, 0x2d, 0xe5, 0x7a, 0x9f, 0x93, 0xc9, 0x9c, 0xef,
  0xa0, 0xe0, 0x3b, 0x4d, 0xae, 0x2a, 0xf5, 0xb0, 0xc8, 0xeb, 0xbb, 0x3c, 0x83, 0x53, 0x99, 0x61,
  0x17, 0x2b, 0x04, 0x7e, 0xba, 0x77, 0xd6, 0x26, 0xe1, 0x69, 0x14, 0x63, 0x55, 0x21, 0x0c, 0x7d]

/-- S-box substitution of one byte. -/
def sbox (x : Byte) : Byte := sboxT.getD x.val 0

/-- Inverse S-box substitution of one byte. -/
def invSbox (x : Byte) : Byte := invSboxT.getD x.val 0

/-- A 16-byte AES state or round-key block; field `si` is input byte `i`
(the AES state holds byte `i` at row `i mod 4`, column `i / 4`). -/
structure Block where
  s0 : Byte
  s1 : Byte
  s2 : Byte
  s3 : Byte
  s4 : Byte
  s5 : Byte
  s6 : Byte
  s7 : Byte
  s8 : Byte
  s9 : Byte
  s10 : Byte
  s11 : Byte
  s12 : Byte
  s13 : Byte
  s14 : Byte
  s15 : Byte
deriving DecidableEq, Repr

/-- AES SubBytes. -/
def subB (b : Block) : Block := ⟨sbox b.s0, sbox b.s1, sbox b.s2, sbox b.s3, sbox b.s4, sbox b.s5, sbox b.s6, sbox b.s7, sbox b.s8, sbox b.s9, sbox b.s10, sbox b.s11, sbox b.s12, sbox b.s13, sbox b.s14, sbox b.s15⟩

/-- AES InvSubBytes. -/
def invSubB (b : Block) : Block := ⟨invSbox b.s0, invSbox b.s1, invSbox b.s2, invSbox b.s3, invSbox b.s4, invSbox b.s5, invSbox b.s6, invSbox b.s7, invSbox b.s8, invSbox b.s9, invSbox b.s10, invSbox b.s11, invSbox b.s12, invSbox b.s13, invSbox b.s14, invSbox b.s15⟩

/-- AES ShiftRows: row `r` of the state rotates left by `r`. -/
def shiftRowsB (b : Block) : Block := ⟨b.s0, b.s5, b.s10, b.s15, b.s4, b.s9, b.s14, b.s3, b.s8, b.s13, b.s2, b.s7, b.s12, b.s1, b.s6, b.s11⟩

/-- AES InvShiftRows: row `r` of the state rotates right by `r`. -/
def invShiftRowsB (b : Block) : Block := ⟨b.s0, b.s13, b.s10, b.s7, b.s4, b.s1, b.s14, b.s11, b.s8, b.s5, b.s2, b.s15, b.s12, b.s9, b.s6, b.s3⟩

/-- AES MixColumns, column by column. -/
def mixColumnsB (b : Block) : Block :=
  ⟨mc0 b.s0 b.s1 b.s2 b.s3, mc1 b.s0 b.s1 b.s2 b.s3, mc2 b.s0 b.s1 b.s2 b.s3, mc3 b.s0 b.s1 b.s2 b.s3, mc0 b.s4 b.s5 b.s6 b.s7, mc1 b.s4 b.s5 b.s6 b.s7, mc2 b.s4 b.s5 b.s6 b.s7, mc3 b.s4 b.s5 b.s6 b.s7, mc0 b.s8 b.s9 b.s10 b.s11, mc1 b.s8 b.s9 b.s10 b.s11, mc2 b.s8 b.s9 b.s10 b.s11, mc3 b.s8 b.s9 b.s10 b.s11, mc0 b.s12 b.s13 b.s14 b.s15, mc1 b.s12 b.s13 b.s14 b.s15, mc2 b.s12 b.s13 b.s14 b.s15, mc3 b.s12 b.s13 b.s14 b.s15⟩

/-- AES InvMixColumns, column by column. -/
def invMixColumnsB (b : Block) : Block :=
  ⟨im0 b.s0 b.s1 b.s2 b.s3, im1 b.s0 b.s1 b.s2 b.s3, im2 b.s0 b.s1 b.s2 b.s3, im3 b.s0 b.s1 b.s2 b.s3, im0 b.s4 b.s5 b.s6 b.s7, im1 b.s4 b.s5 b.s6 b.s7, im2 b.s4 b.s5 b.s6 b.s7, im3 b.s4 b.s5 b.s6 b.s7, im0 b.s8 b.s9 b.s10 b.s11, im1 b.s8 b.s9 b.s10 b.s11, im2 b.s8 b.s9 b.s10 b.s11, im3 b.s8 b.s9 b.s10 b.s11, im0 b.s12 b.s13 b.s14 b.s15, im1 b.s12 b.s13 b.s14 b.s15, im2 b.s12 b.s13 b.s14 b.s15, im3 b.s12 b.s13 b.s14 b.s15⟩

/-- AES AddRoundKey: bytewise XOR of the state with a round key. -/
def addRK (st k : Block) : Block := ⟨xor8 st.s0 k.s0, xor8 st.s1 k.s1, xor8 st.s2 k.s2, xor8 st.s3 k.s3, xor8 st.s4 k.s4, xor8 st.s5 k.s5, xor8 st.s6 k.s6, xor8 st.s7 k.s7, xor8 st.s8 k.s8, xor8 st.s9 k.s9, xor8 st.s10 k.s10, xor8 st.s11 k.s11, xor8 st.s12 k.s12, xor8 st.s13 k.s13, xor8 st.s14 k.s14, xor8 st.s15 k.s15⟩

/-- A 4-byte key-schedule word. -/
abbrev Word := Byte × Byte × Byte × Byte

/-- Default word used with `List.getD` (never reached on well-formed input). -/
def wdflt : Word := (0, 0, 0, 0)

/-- S-box applied to each byte of a word (key schedule `SubWord`). -/
def subWord (w : Word) : Word := (sbox w.1, sbox w.2.1, sbox w.2.2.1, sbox w.2.2.2)

/-- Cyclic left rotation of a word by one byte (key schedule `RotWord`). -/
def rotWord (w : Word) : Word := (w.2.1, w.2.2.1, w.2.2.2, w.1)

/-- Bytewise XOR of two words. -/
def xorW (a b : Word) : Word := (xor8 a.1 b.1, xor8 a.2.1 b.2.1, xor8 a.2.2.1 b.2.2.1, xor8 a.2.2.2 b.2.2.2)

/-- Round constant `Rcon[i]` (first byte; AES-256 uses `i = 1..7`). -/
def rconByte (i : Nat) : Byte := [0, 1, 2, 4, 8, 16, 32, 64].getD i 0

/-- Round-constant word `(Rcon[i], 0, 0, 0)`. -/
def rconW (i : Nat) : Word := (rconByte i, 0, 0, 0)

/-- Word `i` of a byte string (big-endian byte order within the word). -/
def wordAt (l : List Byte) (i : Nat) : Word :=
  (l.getD (4 * i) 0, l.getD (4 * i + 1) 0, l.getD (4 * i + 2) 0, l.getD (4 * i + 3) 0)

/-- The first `Nk = 8` schedule words, straight from the 32-byte key. -/
def initWords (key : List Byte) : List Word :=
  [wordAt key 0, wordAt key 1, wordAt key 2, wordAt key 3,
    wordAt key 4, wordAt key 5, wordAt key 6, wordAt key 7]

/-- The next key-schedule word (FIPS 197 §5.2, `Nk = 8`). -/
def nextWord (ws : List Word) : Word :=
  let i := ws.length
  let prev := ws.getD (i - 1) wdflt
  let p8 := ws.getD (i - 8) wdflt
  if i % 8 = 0 then xorW p8 (xorW (subWord (rotWord prev)) (rconW (i / 8)))
  else if i % 8 = 4 then xorW p8 (subWord prev)
  else xorW p8 prev

/-- Append `fuel` further schedule words. -/
def expandAux : Nat → List Word → List Word
  | 0, ws => ws
  | n + 1, ws => expandAux n (ws ++ [nextWord ws])

/-- Four schedule words laid out as a 16-byte round-key block. -/
def blockOfWords (w0 w1 w2 w3 : Word) : Block :=
  ⟨w0.1, w0.2.1, w0.2.2.1, w0.2.2.2, w1.1, w1.2.1, w1.2.2.1, w1.2.2.2, w2.1, w2.2.1, w2.2.2.1, w2.2.2.2, w3.1, w3.2.1, w3.2.2.1, w3.2.2.2⟩

/-- Group 60 schedule words into the 15 AES-256 round keys. -/
def roundKeysOf (ws : List Word) : List Block :=
  [
    blockOfWords (ws.getD 0 wdflt) (ws.getD 1 wdflt) (ws.getD 2 wdflt) (ws.getD 3 wdflt),
    blockOfWords (ws.getD 4 wdflt) (ws.getD 5 wdflt) (ws.getD 6 wdflt) (ws.getD 7 wdflt),
    blockOfWords (ws.getD 8 wdflt) (ws.getD 9 wdflt) (ws.getD 10 wdflt) (ws.getD 11 wdflt),
    blockOfWords (ws.getD 12 wdflt) (ws.getD 13 wdflt) (ws.getD 14 wdflt) (ws.getD 15 wdflt),
    blockOfWords (ws.getD 16 wdflt) (ws.getD 17 wdflt) (ws.getD 18 wdflt) (ws.getD 19 wdflt),
    blockOfWords (ws.getD 20 wdflt) (ws.getD 21 wdflt) (ws.getD 22 wdflt) (ws.getD 23 wdflt),
    blockOfWords (ws.getD 24 wdflt) (ws.getD 25 wdflt) (ws.getD 26 wdflt) (ws.getD 27 wdflt),
    blockOfWords (ws.getD 28 wdflt) (ws.getD 29 wdflt) (ws.getD 30 wdflt) (ws.getD 31 wdflt),
    blockOfWords (ws.getD 32 wdflt) (ws.getD 33 wdflt) (ws.getD 34 wdflt) (ws.getD 35 wdflt),
    blockOfWords (ws.getD 36 wdflt) (ws.getD 37 wdflt) (ws.getD 38 wdflt) (ws.getD 39 wdflt),
    blockOfWords (ws.getD 40 wdflt) (ws.getD 41 wdflt) (ws.getD 42 wdflt) (ws.getD 43 wdflt),
    blockOfWords (ws.getD 44 wdflt) (ws.getD 45 wdflt) (ws.getD 46 wdflt) (ws.getD 47 wdflt),
    blockOfWords (ws.getD 48 wdflt) (ws.getD 49 wdflt) (ws.getD 50 wdflt) (ws.getD 51 wdflt),
    blockOfWords (ws.getD 52 wdflt) (ws.getD 53 wdflt) (ws.getD 54 wdflt) (ws.getD 55 wdflt),
    blockOfWords (ws.getD 56 wdflt) (ws.getD 57 wdflt) (ws.getD 58 wdflt) (ws.getD 59 wdflt)]

/-- The 15 AES-256 round keys derived from a 32-byte key. -/
def expandKey (key : List Byte) : List Block :=
  roundKeysOf (expandAux 52 (initWords key))

/-- All but the initial AddRoundKey of AES encryption: the middle rounds
(SubBytes, ShiftRows, MixColumns, AddRoundKey) for every key except the last,
then the final round (SubBytes, ShiftRows, AddRoundKey). -/
def encRF : List Block → Block → Block
  | [], st => st
  | [k], st => addRK (shiftRowsB (subB st)) k
  | k :: k2 :: rest, st => encRF (k2 :: rest) (addRK (mixColumnsB (shiftRowsB (subB st))) k)

/-- Inverse of `encRF`: undo the final round, then the middle rounds in
reverse order. -/
def decRF : List Block → Block → Block
  | [], st => st
  | [k], st => invSubB (invShiftRowsB (addRK st k))
  | k :: k2 :: rest, st =>
    invSubB (invShiftRowsB (invMixColumnsB (addRK (decRF (k2 :: rest) st) k)))

/-- AES block encryption: initial AddRoundKey, then the rounds. -/
def encryptBlock (rks : List Block) (st : Block) : Block :=
  match rks with
  | [] => st
  | k0 :: rest => encRF rest (addRK st k0)

/-- AES block decryption (straightforward inverse cipher). -/
def decryptBlock (rks : List Block) (st : Block) : Block :=
  match rks with
  | [] => st
  | k0 :: rest => addRK (decRF rest st) k0

theorem sbox_invSbox : ∀ x : Byte, invSbox (sbox x) = x := by decide

theorem subB_inv (b : Block) : invSubB (subB b) = b := by
  simp [subB, invSubB, sbox_invSbox]

theorem shiftRowsB_inv (b : Block) : invShiftRowsB (shiftRowsB b) = b := rfl

theorem mixColumnsB_inv (b : Block) : invMixColumnsB (mixColumnsB b) = b := by
  simp [mixColumnsB, invMixColumnsB, im_mc_0, im_mc_1, im_mc_2, im_mc_3]

theorem addRK_cancel (k st : Block) : addRK (addRK st k) k = st := by
  simp [addRK, xor8_cancel]

theorem decRF_encRF : ∀ (ks : List Block) (st : Block), decRF ks (encRF ks st) = st := by
  intro ks
  induction ks with
  | nil => intro st; rfl
  | cons k rest ih =>
    intro st
    cases rest with
    | nil => simp [encRF, decRF, addRK_cancel, shiftRowsB_inv, subB_inv]
    | cons k2 rest2 =>
      simp only [encRF, decRF]
      rw [ih, addRK_cancel, mixColumnsB_inv, shiftRowsB_inv, subB_inv]

theorem decryptBlock_encryptBlock (rks : List Block) (st : Block) :
    decryptBlock rks (encryptBlock rks st) = st := by
  cases rks with
  | nil => rfl
  | cons k0 rest => simp [encryptBlock, decryptBlock, decRF_encRF, addRK_cancel]

/-- The AES-256 key of the FIPS 197 Appendix C.3 example. -/
def fipsKey : List Byte := [0x00, 0x01, 0x02, 0x03, 0x04, 0x05, 0x06, 0x07, 0x08, 0x09, 0x0a, 0x0b, 0x0c, 0x0d, 0x0e, 0x0f, 0x10, 0x11, 0x12, 0x13, 0x14, 0x15, 0x16, 0x17, 0x18, 0x19, 0x1a, 0x1b, 0x1c, 0x1d, 0x1e, 0x1f]

/-- The FIPS 197 C.3 plaintext block `00112233445566778899aabbccddeeff`. -/
def fipsPlain : Block := ⟨0x00, 0x11, 0x22, 0x33, 0x44, 0x55, 0x66, 0x77, 0x88, 0x99, 0xaa, 0xbb, 0xcc, 0xdd, 0xee, 0xff⟩

/-- The FIPS 197 C.3 ciphertext block `8ea2b7ca516745bfeafc49904b496089`. -/
def fipsCipher : Block := ⟨0x8e, 0xa2, 0xb7, 0xca, 0x51, 0x67, 0x45, 0xbf, 0xea, 0xfc, 0x49, 0x90, 0x4b, 0x49, 0x60, 0x89⟩

/-- Known-answer test pinning the AES-256 embedding to FIPS 197 Appendix C.3. -/
theorem aes256_fips197_vector : encryptBlock (expandKey fipsKey) fipsPlain = fipsCipher := by
  decide

/-- The bytes of a block, in order. -/
def blockToList (b : Block) : List Byte := [b.s0, b.s1, b.s2, b.s3, b.s4, b.s5, b.s6, b.s7, b.s8, b.s9, b.s10, b.s11, b.s12, b.s13, b.s14, b.s15]

/-- Read the first 16 bytes of a list as a block (missing bytes read as 0;
only applied to lists of length at least 16). -/
def listToBlockD (l : List Byte) : Block := ⟨l.getD 0 0, l.getD 1 0, l.getD 2 0, l.getD 3 0, l.getD 4 0, l.getD 5 0, l.getD 6 0, l.getD 7 0, l.getD 8 0, l.getD 9 0, l.getD 10 0, l.getD 11 0, l.getD 12 0, l.getD 13 0, l.getD 14 0, l.getD 15 0⟩

/-- Concatenate a list of blocks back into a byte string. -/
def flattenBlocks : List Block → List Byte
  | [] => []
  | b :: bs => blockToList b ++ flattenBlocks bs

/-- Split a byte string into 16-byte blocks; `fuel` bounds the recursion. -/
def chunkAux : Nat → List Byte → List Block
  | 0, _ => []
  | _, [] => []
  | n + 1, l => listToBlockD l :: chunkAux n (l.drop 16)

/-- Split a byte string (whose length is a multiple of 16) into blocks. -/
def chunk16 (l : List Byte) : List Block := chunkAux l.length l

/-- CBC encryption of a block sequence with chaining value `prev`. -/
def cbcEncBlocks (rks : List Block) : Block → List Block → List Block
  | _, [] => []
  | prev, p :: ps =>
    let c := encryptBlock rks (addRK p prev)
    c :: cbcEncBlocks rks c ps

/-- CBC decryption of a block sequence with chaining value `prev`. -/
def cbcDecBlocks (rks : List Block) : Block → List Block → List Block
  | _, [] => []
  | prev, c :: cs => addRK (decryptBlock rks c) prev :: cbcDecBlocks rks c cs

/-- The PKCS7 padding byte for a message of length `n`: `16 - n % 16`. -/
def padByte (n : Nat) : Byte := ⟨(16 - n % 16) % 256, Nat.mod_lt _ (by norm_num)⟩

/-- PKCS7 padding to a multiple of the 16-byte block size
(`block-padding` crate, `Pkcs7::pad`). -/
def pkcs7pad (bs : List Byte) : List Byte :=
  bs ++ List.replicate (16 - bs.length % 16) (padByte bs.length)

/-- PKCS7 unpadding (`block-padding` crate, `Pkcs7::unpad`): the last byte `n`
must be nonzero, at most the message length, and the last `n` bytes must all
equal it. -/
def pkcs7unpad (bs : List Byte) : Except Unit (List Byte) :=
  match bs.getLast? with
  | none => .error ()
  | some last =>
    if last.val = 0 ∨ bs.length < last.val then .error ()
    else if (bs.drop (bs.length - last.val)).all (fun v => v == last) then
      .ok (bs.take (bs.length - last.val))
    else .error ()

/-- `block_modes::BlockModeError` (an opaque unit struct in the crate). -/
inductive BlockModeError where
  | mk : BlockModeError
deriving DecidableEq, Repr

/-- The `Cbc<Aes256, Pkcs7>` cipher value: key material plus the current
chaining value, as held by the `block_modes` crate. -/
structure Aes256Cbc where
  key : List Byte
  iv : List Byte
deriving DecidableEq, Repr

/-- Rust `Clone::clone` on the cipher value: a fresh copy. -/
def cloneCipher (c : Aes256Cbc) : Aes256Cbc := c

/-- `BlockMode::encrypt_vec` for `Cbc<Aes256, Pkcs7>`: PKCS7-pad, then CBC
encryption from the configured IV.  The method consumes the cipher; the pair
returns the advanced cipher state alongside the ciphertext. -/
def encrypt_vec (c : Aes256Cbc) (pt : List Byte) : List Byte × Aes256Cbc :=
  let rks := expandKey c.key
  let blocks := chunk16 (pkcs7pad pt)
  let cts := cbcEncBlocks rks (listToBlockD c.iv) blocks
  (flattenBlocks cts,
    { key := c.key, iv := blockToList (cts.getLast?.getD (listToBlockD c.iv)) })

/-- `BlockMode::decrypt_vec` for `Cbc<Aes256, Pkcs7>`: the buffer length must
be a multiple of the block size, then CBC decryption from the configured IV,
then PKCS7 unpadding; either failure is a `BlockModeError`.  The method
consumes the cipher; the pair returns the advanced cipher state alongside. -/
def decrypt_vec (c : Aes256Cbc) (ct : List Byte) :
    Except BlockModeError (List Byte) × Aes256Cbc :=
  let rks := expandKey c.key
  if ct.length % 16 = 0 then
    let blocks := chunk16 ct
    let post : Aes256Cbc :=
      { key := c.key, iv := blockToList (blocks.getLast?.getD (listToBlockD c.iv)) }
    match pkcs7unpad (flattenBlocks (cbcDecBlocks rks (listToBlockD c.iv) blocks)) with
    | .ok data => (.ok data, post)
    | .error _ => (.error .mk, post)
  else (.error .mk, c)

theorem flattenBlocks_length (bs : List Block) : (flattenBlocks bs).length = 16 * bs.length := by
  induction bs with
  | nil => rfl
  | cons b rest ih =>
    simp [flattenBlocks, blockToList, ih]
    ring

theorem chunk_flatten (bs : List Block) :
    ∀ fuel : Nat, bs.length ≤ fuel → chunkAux fuel (flattenBlocks bs) = bs := by
  induction bs with
  | nil =>
    intro fuel h
    cases fuel <;> rfl
  | cons b rest ih =>
    intro fuel h
    cases fuel with
    | zero => simp at h
    | succ n =>
      have h1 : chunkAux (n + 1) (flattenBlocks (b :: rest)) =
          listToBlockD (blockToList b ++ flattenBlocks rest) ::
            chunkAux n ((blockToList b ++ flattenBlocks rest).drop 16) := rfl
      have h2 : listToBlockD (blockToList b ++ flattenBlocks rest) = b := rfl
      have h3 : (blockToList b ++ flattenBlocks rest).drop 16 = flattenBlocks rest := rfl
      rw [h1, h2, h3, ih n (by simpa using h)]

theorem exists_block_head (l : List Byte) (h : 16 ≤ l.length) :
    ∃ b : Block, ∃ t : List Byte, l = blockToList b ++ t := by
  rcases l with _ | ⟨a0, l⟩
  · simp at h
  rcases l with _ | ⟨a1, l⟩
  · simp at h
  rcases l with _ | ⟨a2, l⟩
  · simp at h
  rcases l with _ | ⟨a3, l⟩
  · simp at h
  rcases l with _ | ⟨a4, l⟩
  · simp at h
  rcases l with _ | ⟨a5, l⟩
  · simp at h
  rcases l with _ | ⟨a6, l⟩
  · simp at h
  rcases l with _ | ⟨a7, l⟩
  · simp at h
  rcases l with _ | ⟨a8, l⟩
  · simp at h
  rcases l with _ | ⟨a9, l⟩
  · simp at h
  rcases l with _ | ⟨a10, l⟩
  · simp at h
  rcases l with _ | ⟨a11, l⟩
  · simp at h
  rcases l with _ | ⟨a12, l⟩
  · simp at h
  rcases l with _ | ⟨a13, l⟩
  · simp at h
  rcases l with _ | ⟨a14, l⟩
  · simp at h
  rcases l with _ | ⟨a15, l⟩
  · simp at h
  exact ⟨⟨a0, a1, a2, a3, a4, a5, a6, a7, a8, a9, a10, a11, a12, a13, a14, a15⟩, l, rfl⟩

theorem flatten_chunk :
    ∀ (fuel : Nat) (l : List Byte), l.length ≤ fuel → l.length % 16 = 0 →
      flattenBlocks (chunkAux fuel l) = l := by
  intro fuel
  induction fuel with
  | zero =>
    intro l h hm
    have h0 : l = [] := List.length_eq_zero.1 (Nat.le_zero.1 h)
    subst h0
    rfl
  | succ n ih =>
    intro l h hm
    by_cases hnil : l = []
    · subst hnil
      rfl
    · have hpos : 0 < l.length := List.length_pos.2 hnil
      have h16 : 16 ≤ l.length := by omega
      obtain ⟨b, t, rfl⟩ := exists_block_head l h16
      have hlen : (blockToList b ++ t).length = 16 + t.length := by
        simp [blockToList]
        omega
      have h1 : chunkAux (n + 1) (blockToList b ++ t) =
          listToBlockD (blockToList b ++ t) :: chunkAux n ((blockToList b ++ t).drop 16) := rfl
      have h2 : listToBlockD (blockToList b ++ t) = b := rfl
      have h3 : (blockToList b ++ t).drop 16 = t := rfl
      rw [h1, h2, h3]
      have ht : flattenBlocks (chunkAux n t) = t := by
        apply ih <;> omega
      show blockToList b ++ flattenBlocks (chunkAux n t) = blockToList b ++ t
      rw [ht]

theorem cbcDec_cbcEnc (rks : List Block) :
    ∀ (ps : List Block) (prev : Block),
      cbcDecBlocks rks prev (cbcEncBlocks rks prev ps) = ps := by
  intro ps
  induction ps with
  | nil => intro prev; rfl
  | cons p rest ih =>
    intro prev
    simp only [cbcEncBlocks, cbcDecBlocks]
    rw [decryptBlock_encryptBlock, addRK_cancel, ih]

theorem padByte_val (n : Nat) : (padByte n).val = 16 - n % 16 := by
  have h : 16 - n % 16 < 256 := by omega
  simp [padByte, Nat.mod_eq_of_lt h]

theorem pkcs7pad_length_mod (bs : List Byte) : (pkcs7pad bs).length % 16 = 0 := by
  simp only [pkcs7pad, List.length_append, List.length_replicate]
  omega

theorem pkcs7unpad_pad (bs : List Byte) : pkcs7unpad (pkcs7pad bs) = .ok bs := by
  obtain ⟨m, hm16⟩ : ∃ m, 16 - bs.length % 16 = m + 1 :=
    ⟨16 - bs.length % 16 - 1, by omega⟩
  have hrep : List.replicate (16 - bs.length % 16) (padByte bs.length) =
      List.replicate m (padByte bs.length) ++ [padByte bs.length] := by
    rw [hm16, List.replicate_succ']
  have hlast : (pkcs7pad bs).getLast? = some (padByte bs.length) := by
    rw [pkcs7pad, hrep, ← List.append_assoc]
    exact List.getLast?_concat _
  have hlen : (pkcs7pad bs).length = bs.length + (16 - bs.length % 16) := by
    simp [pkcs7pad]
  rw [pkcs7unpad, hlast]
  simp only
  rw [if_neg (by rw [padByte_val, hlen]; omega)]
  have hdropn : (pkcs7pad bs).length - (padByte bs.length).val = bs.length := by
    rw [padByte_val, hlen]
    omega
  have hdrop : (pkcs7pad bs).drop bs.length = List.replicate (16 - bs.length % 16) (padByte bs.length) := by
    rw [pkcs7pad]
    exact List.drop_left _ _
  have htake : (pkcs7pad bs).take bs.length = bs := by
    rw [pkcs7pad]
    exact List.take_left _ _
  rw [hdropn, hdrop, htake, if_pos]
  simp [List.all_eq_true, List.mem_replicate]

theorem decrypt_vec_encrypt_vec (c : Aes256Cbc) (pt : List Byte) :
    (decrypt_vec c (encrypt_vec c pt).1).1 = .ok pt := by
  have henc : (encrypt_vec c pt).1 =
      flattenBlocks (cbcEncBlocks (expandKey c.key) (listToBlockD c.iv)
        (chunk16 (pkcs7pad pt))) := rfl
  rw [henc, decrypt_vec]
  rw [if_pos (by rw [flattenBlocks_length]; omega)]
  simp only
  rw [show chunk16 (flattenBlocks (cbcEncBlocks (expandKey c.key) (listToBlockD c.iv)
        (chunk16 (pkcs7pad pt)))) = cbcEncBlocks (expandKey c.key) (listToBlockD c.iv)
        (chunk16 (pkcs7pad pt)) from by
      rw [chunk16]
      apply chunk_flatten
      rw [flattenBlocks_length]
      omega]
  rw [cbcDec_cbcEnc]
  rw [show flattenBlocks (chunk16 (pkcs7pad pt)) = pkcs7pad pt from by
      rw [chunk16]
      exact flatten_chunk _ _ le_rfl (pkcs7pad_length_mod pt)]
  rw [pkcs7unpad_pad]

/-- UTF-8 encoding of one Unicode scalar value (RFC 3629). -/
def utf8EncodeChar (c : Char) : List Byte :=
  if h : c.toNat < 0x80 then
    [⟨c.toNat, by omega⟩]
  else if h2 : c.toNat < 0x800 then
    [⟨0xC0 + c.toNat / 64, by omega⟩, ⟨0x80 + c.toNat % 64, by omega⟩]
  else if h3 : c.toNat < 0x10000 then
    [⟨0xE0 + c.toNat / 4096, by omega⟩, ⟨0x80 + c.toNat / 64 % 64, by omega⟩,
      ⟨0x80 + c.toNat % 64, by omega⟩]
  else if h4 : c.toNat < 0x110000 then
    [⟨0xF0 + c.toNat / 262144, by omega⟩, ⟨0x80 + c.toNat / 4096 % 64, by omega⟩,
      ⟨0x80 + c.toNat / 64 % 64, by omega⟩, ⟨0x80 + c.toNat % 64, by omega⟩]
  else []

/-- The UTF-8 bytes of a string, as Rust `str::as_bytes` sees them. -/
def strBytes (s : String) : List Byte := s.data.flatMap utf8EncodeChar

/-- A UTF-8 continuation byte: `10xxxxxx`. -/
abbrev isCont (b : Byte) : Prop := 0x80 ≤ b.val ∧ b.val < 0xC0

/-- Code point assembled from a 2-byte UTF-8 sequence. -/
def cp2 (b b1 : Byte) : Nat := (b.val - 0xC0) * 64 + (b1.val - 0x80)

/-- Code point assembled from a 3-byte UTF-8 sequence. -/
def cp3 (b b1 b2 : Byte) : Nat :=
  (b.val - 0xE0) * 4096 + (b1.val - 0x80) * 64 + (b2.val - 0x80)

/-- Code point assembled from a 4-byte UTF-8 sequence. -/
def cp4 (b b1 b2 b3 : Byte) : Nat :=
  (b.val - 0xF0) * 262144 + (b1.val - 0x80) * 4096 + (b2.val - 0x80) * 64 + (b3.val - 0x80)

/-- Decode one 2-byte sequence in front of an already-decoded tail, rejecting
bad continuation bytes and overlong encodings. -/
def decode2 (b b1 : Byte) (k : Option (List Char)) : Option (List Char) :=
  if isCont b1 ∧ 0x80 ≤ cp2 b b1 then k.map (fun cs => Char.ofNat (cp2 b b1) :: cs) else none

/-- Decode one 3-byte sequence, rejecting bad continuations, overlong
encodings and surrogate code points. -/
def decode3 (b b1 b2 : Byte) (k : Option (List Char)) : Option (List Char) :=
  if isCont b1 ∧ isCont b2 ∧ 0x800 ≤ cp3 b b1 b2 ∧
      ¬(0xD800 ≤ cp3 b b1 b2 ∧ cp3 b b1 b2 < 0xE000) then
    k.map (fun cs => Char.ofNat (cp3 b b1 b2) :: cs)
  else none

/-- Decode one 4-byte sequence, rejecting bad continuations, overlong
encodings and code points above `0x10FFFF`. -/
def decode4 (b b1 b2 b3 : Byte) (k : Option (List Char)) : Option (List Char) :=
  if isCont b1 ∧ isCont b2 ∧ isCont b3 ∧
      0x10000 ≤ cp4 b b1 b2 b3 ∧ cp4 b b1 b2 b3 < 0x110000 then
    k.map (fun cs => Char.ofNat (cp4 b b1 b2 b3) :: cs)
  else none

/-- Dispatch a 2-byte UTF-8 sequence: the leading byte, the recursive decoder
for the remainder, and the remaining bytes. -/
def decode2L (b : Byte) (go : List Byte → Option (List Char)) : List Byte → Option (List Char)
  | b1 :: rest2 => decode2 b b1 (go rest2)
  | [] => none

/-- Dispatch a 3-byte UTF-8 sequence. -/
def decode3L (b : Byte) (go : List Byte → Option (List Char)) : List Byte → Option (List Char)
  | b1 :: b2 :: rest3 => decode3 b b1 b2 (go rest3)
  | _ => none

/-- Dispatch a 4-byte UTF-8 sequence. -/
def decode4L (b : Byte) (go : List Byte → Option (List Char)) : List Byte → Option (List Char)
  | b1 :: b2 :: b3 :: rest4 => decode4 b b1 b2 b3 (go rest4)
  | _ => none

/-- Strict UTF-8 decoding (RFC 3629), fuelled for structural recursion:
rejects truncated sequences, stray or missing continuation bytes, overlong
encodings, surrogate code points and values above `0x10FFFF` — exactly the
byte strings Rust `String::from_utf8` rejects. -/
def decodeAux : Nat → List Byte → Option (List Char)
  | _, [] => some []
  | 0, _ :: _ => none
  | n + 1, b :: rest =>
    if b.val < 0x80 then (decodeAux n rest).map (fun cs => Char.ofNat b.val :: cs)
    else if b.val < 0xC0 then none
    else if b.val < 0xE0 then decode2L b (decodeAux n) rest
    else if b.val < 0xF0 then decode3L b (decodeAux n) rest
    else if b.val < 0xF8 then decode4L b (decodeAux n) rest
    else none

/-- UTF-8 decoding of a byte string (the fuel covers every byte). -/
def decodeUtf8 (bs : List Byte) : Option (List Char) := decodeAux bs.length bs

/-- Rust `std::string::FromUtf8Error`: carries the rejected bytes. -/
structure FromUtf8Error where
  bytes : List Byte
deriving DecidableEq, Repr

/-- Rust `String::from_utf8`. -/
def string_from_utf8 (bs : List Byte) : Except FromUtf8Error String :=
  match decodeUtf8 bs with
  | some cs => .ok ⟨cs⟩
  | none => .error ⟨bs⟩

theorem char_valid_ranges (c : Char) :
    c.toNat < 0xD800 ∨ (0xE000 ≤ c.toNat ∧ c.toNat < 0x110000) := c.valid

theorem decodeAux_encodeChar (c : Char) (tail : List Byte) (n : Nat) :
    decodeAux (n + 1) (utf8EncodeChar c ++ tail) =
      (decodeAux n tail).map (fun cs => c :: cs) := by
  have hv := char_valid_ranges c
  rcases Nat.lt_or_ge c.toNat 0x80 with h1 | h1
  · rw [utf8EncodeChar, dif_pos h1]
    show decodeAux (n + 1) (⟨c.toNat, _⟩ :: tail) = _
    rw [decodeAux]
    rw [if_pos (show (⟨c.toNat, by omega⟩ : Byte).val < 0x80 from h1)]
    rw [show Char.ofNat (⟨c.toNat, by omega⟩ : Byte).val = c from Char.ofNat_toNat c]
  · rcases Nat.lt_or_ge c.toNat 0x800 with h2 | h2
    · rw [utf8EncodeChar, dif_neg (by omega), dif_pos h2]
      show decodeAux (n + 1) (⟨0xC0 + c.toNat / 64, _⟩ :: ⟨0x80 + c.toNat % 64, _⟩ :: tail) = _
      rw [decodeAux]
      rw [if_neg (by show ¬(0xC0 + c.toNat / 64 < 0x80); omega),
        if_neg (by show ¬(0xC0 + c.toNat / 64 < 0xC0); omega),
        if_pos (by show 0xC0 + c.toNat / 64 < 0xE0; omega)]
      rw [decode2L, decode2]
      rw [show cp2 ⟨0xC0 + c.toNat / 64, by omega⟩ ⟨0x80 + c.toNat % 64, by omega⟩ = c.toNat from by
        simp only [cp2]
        omega]
      rw [if_pos ⟨⟨by show 0x80 ≤ 0x80 + c.toNat % 64; omega,
          by show 0x80 + c.toNat % 64 < 0xC0; omega⟩, by omega⟩]
      rw [Char.ofNat_toNat]
    · rcases Nat.lt_or_ge c.toNat 0x10000 with h3 | h3
      · rw [utf8EncodeChar, dif_neg (by omega), dif_neg (by omega), dif_pos h3]
        show decodeAux (n + 1) (⟨0xE0 + c.toNat / 4096, _⟩ :: ⟨0x80 + c.toNat / 64 % 64, _⟩ ::
          ⟨0x80 + c.toNat % 64, _⟩ :: tail) = _
        rw [decodeAux]
        rw [if_neg (by show ¬(0xE0 + c.toNat / 4096 < 0x80); omega),
          if_neg (by show ¬(0xE0 + c.toNat / 4096 < 0xC0); omega),
          if_neg (by show ¬(0xE0 + c.toNat / 4096 < 0xE0); omega),
          if_pos (by show 0xE0 + c.toNat / 4096 < 0xF0; omega)]
        rw [decode3L, decode3]
        rw [show cp3 ⟨0xE0 + c.toNat / 4096, by omega⟩ ⟨0x80 + c.toNat / 64 % 64, by omega⟩
            ⟨0x80 + c.toNat % 64, by omega⟩ = c.toNat from by
          simp only [cp3]
          omega]
        rw [if_pos ⟨⟨by show 0x80 ≤ 0x80 + c.toNat / 64 % 64; omega,
            by show 0x80 + c.toNat / 64 % 64 < 0xC0; omega⟩,
          ⟨by show 0x80 ≤ 0x80 + c.toNat % 64; omega,
            by show 0x80 + c.toNat % 64 < 0xC0; omega⟩, by omega, by omega⟩]
        rw [Char.ofNat_toNat]
      · have h4 : c.toNat < 0x110000 := by omega
        rw [utf8EncodeChar, dif_neg (by omega), dif_neg (by omega), dif_neg (by omega),
          dif_pos h4]
        show decodeAux (n + 1) (⟨0xF0 + c.toNat / 262144, _⟩ :: ⟨0x80 + c.toNat / 4096 % 64, _⟩ ::
          ⟨0x80 + c.toNat / 64 % 64, _⟩ :: ⟨0x80 + c.toNat % 64, _⟩ :: tail) = _
        rw [decodeAux]
        rw [if_neg (by show ¬(0xF0 + c.toNat / 262144 < 0x80); omega),
          if_neg (by show ¬(0xF0 + c.toNat / 262144 < 0xC0); omega),
          if_neg (by show ¬(0xF0 + c.toNat / 262144 < 0xE0); omega),
          if_neg (by show ¬(0xF0 + c.toNat / 262144 < 0xF0); omega),
          if_pos (by show 0xF0 + c.toNat / 262144 < 0xF8; omega)]
        rw [decode4L, decode4]
        rw [show cp4 ⟨0xF0 + c.toNat / 262144, by omega⟩ ⟨0x80 + c.toNat / 4096 % 64, by omega⟩
            ⟨0x80 + c.toNat / 64 % 64, by omega⟩ ⟨0x80 + c.toNat % 64, by omega⟩ = c.toNat from by
          simp only [cp4]
          omega]
        rw [if_pos ⟨⟨by show 0x80 ≤ 0x80 + c.toNat / 4096 % 64; omega,
            by show 0x80 + c.toNat / 4096 % 64 < 0xC0; omega⟩,
          ⟨by show 0x80 ≤ 0x80 + c.toNat / 64 % 64; omega,
            by show 0x80 + c.toNat / 64 % 64 < 0xC0; omega⟩,
          ⟨by show 0x80 ≤ 0x80 + c.toNat % 64; omega,
            by show 0x80 + c.toNat % 64 < 0xC0; omega⟩, by omega, by omega⟩]
        rw [Char.ofNat_toNat]

theorem utf8EncodeChar_length_pos (c : Char) : 1 ≤ (utf8EncodeChar c).length := by
  have hv := char_valid_ranges c
  rcases Nat.lt_or_ge c.toNat 0x80 with h1 | h1
  · rw [utf8EncodeChar, dif_pos h1]
    simp
  · rcases Nat.lt_or_ge c.toNat 0x800 with h2 | h2
    · rw [utf8EncodeChar, dif_neg (by omega), dif_pos h2]
      simp
    · rcases Nat.lt_or_ge c.toNat 0x10000 with h3 | h3
      · rw [utf8EncodeChar, dif_neg (by omega), dif_neg (by omega), dif_pos h3]
        simp
      · rw [utf8EncodeChar, dif_neg (by omega), dif_neg (by omega), dif_neg (by omega),
          dif_pos (show c.toNat < 0x110000 by omega)]
        simp

theorem decodeAux_bind :
    ∀ (cs : List Char) (fuel : Nat), cs.length ≤ fuel →
      decodeAux fuel (cs.flatMap utf8EncodeChar) = some cs := by
  intro cs
  induction cs with
  | nil =>
    intro fuel h
    cases fuel <;> rfl
  | cons c rest ih =>
    intro fuel h
    cases fuel with
    | zero => simp at h
    | succ n =>
      rw [List.flatMap_cons, decodeAux_encodeChar, ih n (by simpa using h)]
      rfl

theorem length_bind_utf8 (cs : List Char) : cs.length ≤ (cs.flatMap utf8EncodeChar).length := by
  induction cs with
  | nil => simp
  | cons c rest ih =>
    rw [List.flatMap_cons, List.length_append]
    have hc := utf8EncodeChar_length_pos c
    simp only [List.length_cons]
    omega

theorem decodeUtf8_strBytes (s : String) : decodeUtf8 (strBytes s) = some s.data := by
  rw [decodeUtf8, strBytes]
  exact decodeAux_bind s.data _ (length_bind_utf8 s.data)

theorem string_from_utf8_strBytes (s : String) : string_from_utf8 (strBytes s) = .ok s := by
  rw [string_from_utf8, decodeUtf8_strBytes]

/-- The lowercase hex digit characters used by the `hex` crate's encoder. -/
def nibbleChar (i : Fin 16) : Char := "0123456789abcdef".data.getD i.val '0'

/-- Byte value of a hex digit character (always ASCII). -/
def hexDigitByte (i : Fin 16) : Byte := ⟨(nibbleChar i).toNat % 256, Nat.mod_lt _ (by norm_num)⟩

/-- The two lowercase hex digit characters of one byte. -/
def hexPairChars (b : Byte) : List Char :=
  [nibbleChar ⟨b.val / 16, by omega⟩, nibbleChar ⟨b.val % 16, by omega⟩]

/-- The two hex digit bytes of one byte. -/
def hexPairBytes (b : Byte) : List Byte :=
  [hexDigitByte ⟨b.val / 16, by omega⟩, hexDigitByte ⟨b.val % 16, by omega⟩]

/-- `hex::encode`: two lowercase hex digits per input byte. -/
def hexEncode (bs : List Byte) : String := ⟨bs.flatMap hexPairChars⟩

/-- `hex::FromHexError`: a bad digit (with its byte index in the input) or an
odd input length. -/
inductive FromHexError where
  | invalidHexCharacter (c : Char) (index : Nat)
  | oddLength
deriving DecidableEq, Repr

/-- Value of one hex digit byte (`0-9`, `a-f`, `A-F`), as the `hex` crate
accepts on decode. -/
def hexVal (b : Byte) : Option (Fin 16) :=
  if h : 48 ≤ b.val ∧ b.val ≤ 57 then some ⟨b.val - 48, by omega⟩
  else if h2 : 97 ≤ b.val ∧ b.val ≤ 102 then some ⟨b.val - 87, by omega⟩
  else if h3 : 65 ≤ b.val ∧ b.val ≤ 70 then some ⟨b.val - 55, by omega⟩
  else none

/-- Decode hex digit pairs, reporting the byte index of the first bad digit
as `hex::decode` does; `i` is the index of the first remaining byte. -/
def decodeHexPairs : List Byte → Nat → Except FromHexError (List Byte)
  | [], _ => .ok []
  | [_], _ => .error .oddLength
  | b1 :: b2 :: rest, i =>
    match hexVal b1 with
    | none => .error (.invalidHexCharacter (Char.ofNat b1.val) i)
    | some hi =>
      match hexVal b2 with
      | none => .error (.invalidHexCharacter (Char.ofNat b2.val) (i + 1))
      | some lo =>
        (decodeHexPairs rest (i + 2)).map
          (fun bs => (⟨(hi.val * 16 + lo.val) % 256, Nat.mod_lt _ (by norm_num)⟩ : Byte) :: bs)

/-- `hex::decode` over the UTF-8 bytes of a string: the byte length must be
even, then digit pairs are decoded left to right. -/
def hex_decode (s : String) : Except FromHexError (List Byte) :=
  if (strBytes s).length % 2 = 0 then decodeHexPairs (strBytes s) 0 else .error .oddLength

theorem hexVal_hexDigitByte : ∀ i : Fin 16, hexVal (hexDigitByte i) = some i := by decide

theorem utf8_nibbleChar : ∀ i : Fin 16, utf8EncodeChar (nibbleChar i) = [hexDigitByte i] := by
  decide

theorem utf8_hexPairChars (b : Byte) :
    (hexPairChars b).flatMap utf8EncodeChar = hexPairBytes b := by
  simp [hexPairChars, hexPairBytes, utf8_nibbleChar]

theorem flatMap_hexPairChars_utf8 :
    ∀ bs : List Byte, (bs.flatMap hexPairChars).flatMap utf8EncodeChar =
      bs.flatMap hexPairBytes := by
  intro bs
  induction bs with
  | nil => rfl
  | cons b rest ih =>
    rw [List.flatMap_cons, List.flatMap_append, ih, utf8_hexPairChars, List.flatMap_cons]

theorem strBytes_hexEncode (bs : List Byte) :
    strBytes (hexEncode bs) = bs.flatMap hexPairBytes := flatMap_hexPairChars_utf8 bs

theorem length_flatMap_hexPairBytes (bs : List Byte) :
    (bs.flatMap hexPairBytes).length = 2 * bs.length := by
  induction bs with
  | nil => rfl
  | cons b rest ih =>
    rw [List.flatMap_cons, List.length_append, ih]
    simp [hexPairBytes]
    omega

theorem decodeHexPairs_pairs :
    ∀ (bs : List Byte) (i : Nat), decodeHexPairs (bs.flatMap hexPairBytes) i = .ok bs := by
  intro bs
  induction bs with
  | nil => intro i; rfl
  | cons b rest ih =>
    intro i
    rw [List.flatMap_cons]
    show decodeHexPairs (hexDigitByte _ :: hexDigitByte _ :: rest.flatMap hexPairBytes) i = _
    rw [decodeHexPairs]
    rw [hexVal_hexDigitByte, hexVal_hexDigitByte]
    show (decodeHexPairs (rest.flatMap hexPairBytes) (i + 2)).map _ = _
    rw [ih]
    show Except.ok (_ :: rest) = _
    rw [show (⟨(b.val / 16 * 16 + b.val % 16) % 256, Nat.mod_lt _ (by norm_num)⟩ : Byte) = b from
      Fin.ext (by show (b.val / 16 * 16 + b.val % 16) % 256 = b.val; omega)]

theorem hex_decode_encode (bs : List Byte) : hex_decode (hexEncode bs) = .ok bs := by
  rw [hex_decode, strBytes_hexEncode]
  rw [if_pos (by rw [length_flatMap_hexPairBytes]; omega)]
  exact decodeHexPairs_pairs bs 0

/-- Left rotation of a 32-bit word by `s` bits. -/
def rotl32 (s w : Nat) : Nat :=
  ((w % 4294967296) * 2 ^ s) % 4294967296 ||| (w % 4294967296) / 2 ^ (32 - s)

/-- Number of zero bytes between the `0x80` marker and the length field so
that the padded message length is a multiple of 64. -/
def sha1PadLen (l : Nat) : Nat := (119 - l % 64) % 64

/-- The 8-byte big-endian bit length `8 * l` closing a SHA-1 message. -/
def sha1LenBytes (l : Nat) : List Byte :=
  [⟨8 * l / 72057594037927936 % 256, Nat.mod_lt _ (by norm_num)⟩,
    ⟨8 * l / 281474976710656 % 256, Nat.mod_lt _ (by norm_num)⟩,
    ⟨8 * l / 1099511627776 % 256, Nat.mod_lt _ (by norm_num)⟩,
    ⟨8 * l / 4294967296 % 256, Nat.mod_lt _ (by norm_num)⟩,
    ⟨8 * l / 16777216 % 256, Nat.mod_lt _ (by norm_num)⟩,
    ⟨8 * l / 65536 % 256, Nat.mod_lt _ (by norm_num)⟩,
    ⟨8 * l / 256 % 256, Nat.mod_lt _ (by norm_num)⟩,
    ⟨8 * l % 256, Nat.mod_lt _ (by norm_num)⟩]

/-- SHA-1 message padding (FIPS 180: `0x80`, zeros, 64-bit length). -/
def sha1Pad (bs : List Byte) : List Byte :=
  bs ++ ⟨0x80, by norm_num⟩ :: (List.replicate (sha1PadLen bs.length) 0 ++ sha1LenBytes bs.length)

/-- Big-endian 32-bit word `i` of a byte string. -/
def word32At (l : List Byte) (i : Nat) : Nat :=
  (l.getD (4 * i) 0).val * 16777216 + (l.getD (4 * i + 1) 0).val * 65536 +
    (l.getD (4 * i + 2) 0).val * 256 + (l.getD (4 * i + 3) 0).val

/-- The 16 message words of one 64-byte chunk. -/
def chunkWords (l : List Byte) : List Nat :=
  [word32At l 0, word32At l 1, word32At l 2, word32At l 3,
    word32At l 4, word32At l 5, word32At l 6, word32At l 7,
    word32At l 8, word32At l 9, word32At l 10, word32At l 11,
    word32At l 12, word32At l 13, word32At l 14, word32At l 15]

/-- Extend the message schedule: `w[i] = rotl1 (w[i-3] ^ w[i-8] ^ w[i-14] ^ w[i-16])`. -/
def extendWords : Nat → List Nat → List Nat
  | 0, ws => ws
  | n + 1, ws =>
    extendWords n (ws ++ [rotl32 1 (ws.getD (ws.length - 3) 0 ^^^ ws.getD (ws.length - 8) 0 ^^^
      ws.getD (ws.length - 14) 0 ^^^ ws.getD (ws.length - 16) 0)])

/-- The SHA-1 round function for round `i`. -/
def sha1F (i b c d : Nat) : Nat :=
  if i < 20 then (b &&& c) ||| ((b ^^^ 4294967295) &&& d)
  else if i < 40 then b ^^^ c ^^^ d
  else if i < 60 then (b &&& c) ||| (b &&& d) ||| (c &&& d)
  else b ^^^ c ^^^ d

/-- The SHA-1 round constant for round `i`. -/
def sha1K (i : Nat) : Nat :=
  if i < 20 then 0x5A827999
  else if i < 40 then 0x6ED9EBA1
  else if i < 60 then 0x8F1BBCDC
  else 0xCA62C1D6

/-- The 80 SHA-1 rounds over the extended schedule. -/
def sha1Rounds : Nat → List Nat → Nat × Nat × Nat × Nat × Nat → Nat × Nat × Nat × Nat × Nat
  | _, [], st => st
  | i, w :: ws, (a, b, c, d, e) =>
    sha1Rounds (i + 1) ws
      ((rotl32 5 a + sha1F i b c d + e + sha1K i + w) % 4294967296, a, rotl32 30 b, c, d)

/-- Process the padded message 64 bytes at a time; `fuel` bounds the recursion. -/
def sha1Chunks : Nat → Nat × Nat × Nat × Nat × Nat → List Byte → Nat × Nat × Nat × Nat × Nat
  | 0, h, _ => h
  | _, h, [] => h
  | fuel + 1, (h0, h1, h2, h3, h4), l =>
    let ws := extendWords 64 (chunkWords l)
    let r := sha1Rounds 0 ws (h0, h1, h2, h3, h4)
    sha1Chunks fuel
      ((h0 + r.1) % 4294967296, (h1 + r.2.1) % 4294967296, (h2 + r.2.2.1) % 4294967296,
        (h3 + r.2.2.2.1) % 4294967296, (h4 + r.2.2.2.2) % 4294967296) (l.drop 64)

/-- Big-endian bytes of a 32-bit word. -/
def word32Bytes (w : Nat) : List Byte :=
  [⟨w / 16777216 % 256, Nat.mod_lt _ (by norm_num)⟩,
    ⟨w / 65536 % 256, Nat.mod_lt _ (by norm_num)⟩,
    ⟨w / 256 % 256, Nat.mod_lt _ (by norm_num)⟩,
    ⟨w % 256, Nat.mod_lt _ (by norm_num)⟩]

/-- SHA-1 (FIPS 180) of a byte string, as computed by the `sha1` crate. -/
def sha1 (bs : List Byte) : List Byte :=
  let p := sha1Pad bs
  let h := sha1Chunks (p.length + 1)
    (0x67452301, 0xEFCDAB89, 0x98BADCFE, 0x10325476, 0xC3D2E1F0) p
  word32Bytes h.1 ++ word32Bytes h.2.1 ++ word32Bytes h.2.2.1 ++
    word32Bytes h.2.2.2.1 ++ word32Bytes h.2.2.2.2

/-- Known-answer test pinning the SHA-1 embedding to FIPS 180 (`"abc"`). -/
theorem sha1_abc : hexEncode (sha1 (strBytes "abc")) = "a9993e364706816aba3e25717850c26c9cd0d89d" := by
  decide

/-- `serde_json::Value`.  JSON numbers are modelled as integers: no claim
involves fractional or exponent payloads, and floating point is outside the
embedding. -/
inductive JValue where
  | null : JValue
  | bool (b : Bool) : JValue
  | num (n : Int) : JValue
  | str (s : String) : JValue
  | arr (xs : List JValue) : JValue
  | obj (fields : List (String × JValue)) : JValue
deriving Repr

/-- A character `serde_json` writes into a string literal unescaped:
anything except `"`, `\`, and control characters. -/
abbrev plainChar (c : Char) : Prop := c ≠ '"' ∧ c ≠ '\\' ∧ 0x20 ≤ c.toNat

/-- `serde_json` string escaping of one character: `\"`, `\\`, the five
named control escapes, `\u00XX` for other control characters, and everything
else verbatim. -/
def escapeChar (c : Char) : List Char :=
  if c = '"' then ['\\', '"']
  else if c = '\\' then ['\\', '\\']
  else if c.toNat < 0x20 then
    if c.toNat = 8 then ['\\', 'b']
    else if c.toNat = 9 then ['\\', 't']
    else if c.toNat = 10 then ['\\', 'n']
    else if c.toNat = 12 then ['\\', 'f']
    else if c.toNat = 13 then ['\\', 'r']
    else ['\\', 'u', '0', '0', nibbleChar ⟨c.toNat / 16 % 16, by omega⟩,
      nibbleChar ⟨c.toNat % 16, by omega⟩]
  else [c]

/-- `serde_json` escaping of a whole string body. -/
def escapeString (s : String) : List Char := s.data.flatMap escapeChar

/-- A JSON string literal: quote, escaped body, quote. -/
def renderString (s : String) : String := ⟨'"' :: (escapeString s ++ ['"'])⟩

mutual

/-- Compact `serde_json` serialization of a value, as `serde_json::to_string`
produces it (no spaces; object fields in stored order). -/
def renderJ : JValue → String
  | .null => "null"
  | .bool true => "true"
  | .bool false => "false"
  | .num n => toString n
  | .str s => renderString s
  | .arr xs => "[" ++ renderArr xs ++ "]"
  | .obj fs => "\x7b" ++ renderObj fs ++ "\x7d"

/-- Comma-separated serialization of array elements. -/
def renderArr : List JValue → String
  | [] => ""
  | [x] => renderJ x
  | x :: y :: rest => renderJ x ++ "," ++ renderArr (y :: rest)

/-- Comma-separated serialization of object members. -/
def renderObj : List (String × JValue) → String
  | [] => ""
  | [(k, v)] => renderString k ++ ":" ++ renderJ v
  | (k, v) :: f :: rest => renderString k ++ ":" ++ renderJ v ++ "," ++ renderObj (f :: rest)

end

/-- `serde_json::Error` (opaque: only its kind matters to the client). -/
inductive SerdeJsonError where
  | mk : SerdeJsonError
deriving DecidableEq, Repr

/-- `serde_json::to_string` on a `Value`: serializing a self-describing
value cannot fail, so the result is always `Ok`. -/
def to_string (v : JValue) : Except SerdeJsonError String := .ok (renderJ v)

/-- Skip JSON whitespace (space, tab, newline, carriage return). -/
def skipWs : List Char → List Char
  | [] => []
  | c :: r => if c = ' ' ∨ c = '\t' ∨ c = '\n' ∨ c = '\r' then skipWs r else c :: r

/-- Hex digit value of a character (for `\u` escapes). -/
def hexValChar (c : Char) : Option (Fin 16) :=
  hexVal ⟨c.toNat % 256, Nat.mod_lt _ (by norm_num)⟩

/-- Decode a `\uXXXX` escape in front of the continuation `go`.  (Surrogate
pairs are not modelled; no theorem exercises them.) -/
def parseUnicodeEsc (go : List Char → Option (List Char × List Char)) :
    List Char → Option (List Char × List Char)
  | h1 :: h2 :: h3 :: h4 :: r =>
    match hexValChar h1, hexValChar h2, hexValChar h3, hexValChar h4 with
    | some a, some b, some c, some d =>
      (go r).map (fun p =>
        (Char.ofNat (a.val * 4096 + b.val * 256 + c.val * 16 + d.val) :: p.1, p.2))
    | _, _, _, _ => none
  | _ => none

/-- Decode one backslash escape in front of the continuation `go`. -/
def parseEscape (go : List Char → Option (List Char × List Char)) :
    List Char → Option (List Char × List Char)
  | [] => none
  | c :: r =>
    if c = '"' then (go r).map (fun p => ('"' :: p.1, p.2))
    else if c = '\\' then (go r).map (fun p => ('\\' :: p.1, p.2))
    else if c = '/' then (go r).map (fun p => ('/' :: p.1, p.2))
    else if c = 'n' then (go r).map (fun p => ('\n' :: p.1, p.2))
    else if c = 't' then (go r).map (fun p => ('\t' :: p.1, p.2))
    else if c = 'r' then (go r).map (fun p => ('\r' :: p.1, p.2))
    else if c = 'b' then (go r).map (fun p => (Char.ofNat 8 :: p.1, p.2))
    else if c = 'f' then (go r).map (fun p => (Char.ofNat 12 :: p.1, p.2))
    else if c = 'u' then parseUnicodeEsc go r
    else none

/-- Parse the body of a JSON string literal after the opening quote, up to
and including the closing quote; rejects unescaped control characters. -/
def parseStringRest : Nat → List Char → Option (List Char × List Char)
  | 0, _ => none
  | _ + 1, [] => none
  | n + 1, c :: r =>
    if c = '"' then some ([], r)
    else if c = '\\' then parseEscape (parseStringRest n) r
    else if c.toNat < 0x20 then none
    else (parseStringRest n r).map (fun p => (c :: p.1, p.2))

/-- Consume a literal character sequence. -/
def dropLit : List Char → List Char → Option (List Char)
  | [], l => some l
  | _ :: _, [] => none
  | c :: cs, d :: l => if c = d then dropLit cs l else none

/-- Consume a run of decimal digits into an accumulator. -/
def parseNumRest : Nat → List Char → Nat → Nat × List Char
  | 0, l, acc => (acc, l)
  | _ + 1, [], acc => (acc, [])
  | n + 1, c :: r, acc =>
    if 48 ≤ c.toNat ∧ c.toNat ≤ 57 then parseNumRest n r (acc * 10 + (c.toNat - 48))
    else (acc, c :: r)

/-- Parse a JSON number (integers only, per the `JValue` model). -/
def parseNumber (fuel : Nat) : List Char → Option (JValue × List Char)
  | [] => none
  | c :: r =>
    if c = '-' then
      match r with
      | d :: _ =>
        if 48 ≤ d.toNat ∧ d.toNat ≤ 57 then
          let p := parseNumRest fuel r 0
          some (.num (-(p.1 : Int)), p.2)
        else none
      | [] => none
    else if 48 ≤ c.toNat ∧ c.toNat ≤ 57 then
      let p := parseNumRest fuel (c :: r) 0
      some (.num (p.1 : Int), p.2)
    else none

/-- Parse the comma-separated elements of a nonempty array. -/
def parseElems (go : List Char → Option (JValue × List Char)) :
    Nat → List Char → Option (List JValue × List Char)
  | 0, _ => none
  | n + 1, l =>
    match go l with
    | none => none
    | some (v, r) =>
      match skipWs r with
      | [] => none
      | c :: r2 =>
        if c = ']' then some ([v], r2)
        else if c = ',' then (parseElems go n r2).map (fun p => (v :: p.1, p.2))
        else none

/-- Parse an array body after the opening bracket and whitespace. -/
def parseArrBodyCore (go : List Char → Option (JValue × List Char)) (fuel : Nat) :
    List Char → Option (JValue × List Char)
  | [] => none
  | c :: r =>
    if c = ']' then some (.arr [], r)
    else (parseElems go fuel (c :: r)).map (fun p => (.arr p.1, p.2))

/-- Parse an array body after the opening bracket. -/
def parseArrBody (go : List Char → Option (JValue × List Char)) (fuel : Nat)
    (l : List Char) : Option (JValue × List Char) :=
  parseArrBodyCore go fuel (skipWs l)

/-- After an object key, expect `:` and parse the member value with `go`. -/
def parseMemberColon (go : List Char → Option (JValue × List Char)) (key : String) :
    List Char → Option ((String × JValue) × List Char)
  | [] => none
  | c2 :: r3 => if c2 = ':' then (go r3).map (fun p => ((key, p.1), p.2)) else none

/-- Continue an object member after its parsed key literal. -/
def parseMemberKey (go : List Char → Option (JValue × List Char)) :
    Option (List Char × List Char) → Option ((String × JValue) × List Char)
  | none => none
  | some (key, r2) => parseMemberColon go ⟨key⟩ (skipWs r2)

/-- Parse one `"key": value` object member after leading whitespace. -/
def parseMemberCore (go : List Char → Option (JValue × List Char)) :
    List Char → Option ((String × JValue) × List Char)
  | [] => none
  | c :: r =>
    if c = '"' then parseMemberKey go (parseStringRest (r.length + 1) r)
    else none

/-- Parse one `"key": value` object member. -/
def parseMember (go : List Char → Option (JValue × List Char)) (l : List Char) :
    Option ((String × JValue) × List Char) :=
  parseMemberCore go (skipWs l)

/-- After one object member: either the closing brace or a comma and, via
`recur`, the remaining members. -/
def parseMembersNext (recur : List Char → Option (List (String × JValue) × List Char))
    (kv : String × JValue) : List Char → Option (List (String × JValue) × List Char)
  | [] => none
  | c :: r2 =>
    if c = '\x7d' then some ([kv], r2)
    else if c = ',' then (recur r2).map (fun p => (kv :: p.1, p.2))
    else none

/-- Parse the comma-separated members of a nonempty object. -/
def parseMembers (go : List Char → Option (JValue × List Char)) :
    Nat → List Char → Option (List (String × JValue) × List Char)
  | 0, _ => none
  | n + 1, l =>
    match parseMember go l with
    | none => none
    | some (kv, r) => parseMembersNext (parseMembers go n) kv (skipWs r)

/-- Parse an object body after the opening brace and whitespace. -/
def parseObjBodyCore (go : List Char → Option (JValue × List Char)) (fuel : Nat) :
    List Char → Option (JValue × List Char)
  | [] => none
  | c :: r =>
    if c = '\x7d' then some (.obj [], r)
    else (parseMembers go fuel (c :: r)).map (fun p => (.obj p.1, p.2))

/-- Parse an object body after the opening brace. -/
def parseObjBody (go : List Char → Option (JValue × List Char)) (fuel : Nat)
    (l : List Char) : Option (JValue × List Char) :=
  parseObjBodyCore go fuel (skipWs l)

/-- Dispatch one JSON value from its first non-whitespace character. -/
def parseValueCore (go : List Char → Option (JValue × List Char)) (fuel : Nat) :
    List Char → Option (JValue × List Char)
  | [] => none
  | c :: r =>
    if c = '\x7b' then parseObjBody go fuel r
    else if c = '[' then parseArrBody go fuel r
    else if c = '"' then (parseStringRest (r.length + 1) r).map (fun p => (.str ⟨p.1⟩, p.2))
    else if c = 'n' then (dropLit ['u', 'l', 'l'] r).map (fun r2 => ((.null : JValue), r2))
    else if c = 't' then (dropLit ['r', 'u', 'e'] r).map (fun r2 => ((.bool true : JValue), r2))
    else if c = 'f' then (dropLit ['a', 'l', 's', 'e'] r).map (fun r2 => ((.bool false : JValue), r2))
    else parseNumber (r.length + 1) (c :: r)

/-- Recursive-descent JSON parser (the `serde_json` grammar over the `JValue`
model), fuelled for structural recursion. -/
def parseValue : Nat → List Char → Option (JValue × List Char)
  | 0, _ => none
  | n + 1, l => parseValueCore (parseValue n) n (skipWs l)

/-- Parse a complete JSON document: one value, then only whitespace. -/
def jsonParse (s : String) : Option JValue :=
  match parseValue (s.length + 1) s.data with
  | some (v, rest) => if skipWs rest = [] then some v else none
  | none => none

/-- The response envelope `serde` target: `struct ApiResult { data: String }`. -/
structure ApiResult where
  data : String
deriving DecidableEq, Repr

/-- serde `Deserialize` of `ApiResult` from a JSON document: the document
must be an object whose `data` member is a string (unknown members are
ignored, as serde does by default). -/
def parseApiResult (body : String) : Option ApiResult :=
  match jsonParse body with
  | some (.obj fields) =>
    match fields.lookup "data" with
    | some (.str s) => some ⟨s⟩
    | _ => none
  | _ => none

theorem string_data_append (a b : String) : (a ++ b).data = a.data ++ b.data := rfl

theorem escapeChar_plain (c : Char) (h : plainChar c) : escapeChar c = [c] := by
  rw [escapeChar, if_neg h.1, if_neg h.2.1, if_neg (Nat.not_lt.2 h.2.2)]

theorem flatMap_escapeChar_plain :
    ∀ cs : List Char, (∀ c ∈ cs, plainChar c) → cs.flatMap escapeChar = cs := by
  intro cs
  induction cs with
  | nil => intro h; rfl
  | cons c rest ih =>
    intro h
    rw [List.flatMap_cons, escapeChar_plain c (h c (by simp)), ih (fun x hx => h x (by simp [hx]))]
    rfl

theorem escapeString_plain (s : String) (h : ∀ c ∈ s.data, plainChar c) :
    escapeString s = s.data := flatMap_escapeChar_plain s.data h

theorem nibbleChar_plain : ∀ i : Fin 16, plainChar (nibbleChar i) := by decide

theorem hexEncode_plain (bs : List Byte) : ∀ c ∈ (hexEncode bs).data, plainChar c := by
  intro c hc
  rw [show (hexEncode bs).data = bs.flatMap hexPairChars from rfl, List.mem_flatMap] at hc
  obtain ⟨b, _, hcb⟩ := hc
  simp only [hexPairChars, List.mem_cons, List.not_mem_nil, or_false] at hcb
  rcases hcb with hcb | hcb <;> rw [hcb] <;> exact nibbleChar_plain _

theorem parseStringRest_plain :
    ∀ (cs : List Char), (∀ c ∈ cs, plainChar c) →
      ∀ (rest : List Char) (n : Nat), cs.length < n →
        parseStringRest n (cs ++ '"' :: rest) = some (cs, rest) := by
  intro cs
  induction cs with
  | nil =>
    intro h rest n hn
    match n, hn with
    | m + 1, _ =>
      show parseStringRest (m + 1) ('"' :: rest) = _
      rw [parseStringRest, if_pos rfl]
  | cons c cs ih =>
    intro h rest n hn
    have hc := h c (by simp)
    match n, hn with
    | m + 1, hn =>
      show parseStringRest (m + 1) (c :: (cs ++ '"' :: rest)) = _
      rw [parseStringRest, if_neg hc.1, if_neg hc.2.1, if_neg (Nat.not_lt.2 hc.2.2)]
      rw [ih (fun x hx => h x (by simp [hx])) rest m (by simp at hn; omega)]
      rfl

theorem parseValue_str (s : String) (h : ∀ c ∈ s.data, plainChar c)
    (rest : List Char) (n : Nat) :
    parseValue (n + 1) ('"' :: (s.data ++ '"' :: rest)) = some (.str s, rest) := by
  rw [parseValue]
  rw [show skipWs ('"' :: (s.data ++ '"' :: rest)) = '"' :: (s.data ++ '"' :: rest) from by
    rw [skipWs, if_neg (by decide)]]
  rw [parseValueCore]
  rw [if_neg (by decide), if_neg (by decide), if_pos rfl]
  rw [parseStringRest_plain s.data h rest _ (by simp; omega)]
  rfl

theorem string_length_data (s : String) : s.length = s.data.length := rfl

theorem renderJ_envelope_data (s : String) :
    (renderJ (.obj [("data", .str s)])).data =
      '\x7b' :: '"' :: 'd' :: 'a' :: 't' :: 'a' :: '"' :: ':' :: '"' ::
        (escapeString s ++ ['"', '\x7d']) := by
  rw [show renderJ (.obj [("data", .str s)]) = "\x7b" ++ renderObj [("data", .str s)] ++ "\x7d"
    from by rw [renderJ]]
  rw [show renderObj [("data", .str s)] = renderString "data" ++ ":" ++ renderJ (.str s)
    from by rw [renderObj]]
  rw [show renderJ (.str s) = renderString s from by rw [renderJ]]
  simp only [string_data_append]
  rw [show (renderString "data").data = ['"', 'd', 'a', 't', 'a', '"'] from rfl,
    show (renderString s).data = '"' :: (escapeString s ++ ['"']) from rfl]
  simp

theorem parseMember_envelope (s : String) (h : ∀ c ∈ s.data, plainChar c) (n : Nat) :
    parseMember (parseValue (n + 1))
      ('"' :: 'd' :: 'a' :: 't' :: 'a' :: '"' :: ':' :: '"' :: (s.data ++ ['"', '\x7d'])) =
      some (("data", .str s), ['\x7d']) := by
  rw [parseMember]
  rw [show skipWs ('"' :: 'd' :: 'a' :: 't' :: 'a' :: '"' :: ':' :: '"' ::
      (s.data ++ ['"', '\x7d'])) =
      '"' :: 'd' :: 'a' :: 't' :: 'a' :: '"' :: ':' :: '"' :: (s.data ++ ['"', '\x7d']) from by
    rw [skipWs, if_neg (by decide)]]
  rw [parseMemberCore, if_pos rfl]
  rw [show ('d' :: 'a' :: 't' :: 'a' :: '"' :: ':' :: '"' :: (s.data ++ ['"', '\x7d'])) =
    ['d', 'a', 't', 'a'] ++ '"' :: (':' :: '"' :: (s.data ++ ['"', '\x7d'])) from rfl]
  rw [parseStringRest_plain ['d', 'a', 't', 'a'] (by decide)
    (':' :: '"' :: (s.data ++ ['"', '\x7d'])) _ (by simp)]
  rw [parseMemberKey]
  rw [show (⟨['d', 'a', 't', 'a']⟩ : String) = "data" from rfl]
  rw [show skipWs (':' :: '"' :: (s.data ++ ['"', '\x7d'])) =
      ':' :: '"' :: (s.data ++ ['"', '\x7d']) from by rw [skipWs, if_neg (by decide)]]
  rw [parseMemberColon, if_pos rfl]
  rw [parseValue_str s h ['\x7d'] n]
  rfl

theorem parseValue_envelope (s : String) (h : ∀ c ∈ s.data, plainChar c) (n : Nat) :
    parseValue (n + 2)
      ('\x7b' :: '"' :: 'd' :: 'a' :: 't' :: 'a' :: '"' :: ':' :: '"' ::
        (s.data ++ ['"', '\x7d'])) = some (.obj [("data", .str s)], []) := by
  rw [show n + 2 = (n + 1) + 1 from rfl, parseValue]
  rw [show skipWs ('\x7b' :: '"' :: 'd' :: 'a' :: 't' :: 'a' :: '"' :: ':' :: '"' ::
      (s.data ++ ['"', '\x7d'])) =
      '\x7b' :: '"' :: 'd' :: 'a' :: 't' :: 'a' :: '"' :: ':' :: '"' ::
        (s.data ++ ['"', '\x7d']) from by
    rw [skipWs, if_neg (by decide)]]
  rw [parseValueCore, if_pos rfl]
  rw [parseObjBody]
  rw [show skipWs ('"' :: 'd' :: 'a' :: 't' :: 'a' :: '"' :: ':' :: '"' ::
      (s.data ++ ['"', '\x7d'])) =
      '"' :: 'd' :: 'a' :: 't' :: 'a' :: '"' :: ':' :: '"' :: (s.data ++ ['"', '\x7d']) from by
    rw [skipWs, if_neg (by decide)]]
  rw [parseObjBodyCore, if_neg (by decide)]
  rw [parseMembers]
  rw [parseMember_envelope s h n]
  show (parseMembersNext (parseMembers (parseValue (n + 1)) n) ("data", .str s)
    (skipWs ['\x7d'])).map _ = _
  rw [show skipWs ['\x7d'] = ['\x7d'] from by rw [skipWs, if_neg (by decide)]]
  rw [parseMembersNext, if_pos rfl]
  rfl

theorem jsonParse_envelope (s : String) (h : ∀ c ∈ s.data, plainChar c) :
    jsonParse (renderJ (.obj [("data", .str s)])) = some (.obj [("data", .str s)]) := by
  have hdata : (renderJ (.obj [("data", .str s)])).data =
      '\x7b' :: '"' :: 'd' :: 'a' :: 't' :: 'a' :: '"' :: ':' :: '"' ::
        (s.data ++ ['"', '\x7d']) := by
    rw [renderJ_envelope_data, escapeString_plain s h]
  rw [jsonParse, string_length_data, hdata]
  rw [show ('\x7b' :: '"' :: 'd' :: 'a' :: 't' :: 'a' :: '"' :: ':' :: '"' ::
      (s.data ++ ['"', '\x7d'])).length + 1 = (s.data.length + 10) + 2 from by simp]
  rw [parseValue_envelope s h]
  rfl

theorem parseApiResult_envelope (s : String) (h : ∀ c ∈ s.data, plainChar c) :
    parseApiResult (renderJ (.obj [("data", .str s)])) = some ⟨s⟩ := by
  rw [parseApiResult, jsonParse_envelope s h]
  rfl

/-- A `chrono` point in time: the instant (non-leap milliseconds since the
Unix epoch, UTC) plus the display offset of the attached time zone.
`timestamp_millis` reads the instant and is therefore independent of the
attached zone; `with_timezone` changes only the offset. -/
structure ChronoDateTime where
  utcMillis : Int
  offsetSeconds : Int
deriving DecidableEq, Repr

/-- `Utc::now()` at the instant `t`; the ambient clock is a parameter of the
embedding. -/
def utcNowAt (t : Int) : ChronoDateTime := ⟨t, 0⟩

/-- The `chrono-tz` `Asia/Shanghai` zone offset: UTC+8, without daylight
saving time (constant since 1991). -/
def shanghaiOffsetSeconds : Int := 8 * 3600

/-- `DateTime::with_timezone`: per the `chrono` documentation the returned
value references the same instant of time; only the display offset changes. -/
def with_timezone (dt : ChronoDateTime) (offsetSeconds : Int) : ChronoDateTime :=
  ⟨dt.utcMillis, offsetSeconds⟩

/-- `DateTime::timestamp_millis`: per the `chrono` documentation, the number
of non-leap milliseconds since January 1, 1970 UTC — read off the instant,
ignoring the display offset. -/
def timestamp_millis (dt : ChronoDateTime) : Int := dt.utcMillis

/-- A `reqwest` error as this client can observe it: an HTTP error status
(produced by `error_for_status`) or a body-decode failure (produced by
`Response::json`). -/
inductive ReqwestError where
  | status (code : Nat) : ReqwestError
  | decode : ReqwestError
deriving DecidableEq, Repr

/-- The error enum of the crate (src/lib.rs lines 20–28), with each payload
the model of the corresponding library error type. -/
inductive ApiClientError where
  | ReqwestError (e : ReqwestError) : ApiClientError
  | SerdeJsonError (e : SerdeJsonError) : ApiClientError
  | AesError (e : BlockModeError) : ApiClientError
  | Utf8Error (e : FromUtf8Error) : ApiClientError
  | HexError (e : FromHexError) : ApiClientError
  | InvalidConfig (s : String) : ApiClientError
deriving DecidableEq, Repr

/-- `ApiClientConfig` (src/lib.rs lines 65–72). -/
structure ApiClientConfig where
  app_id : String
  app_secret : String
  iv : String
  base_url : String
  content : String
deriving DecidableEq, Repr

/-- `block_modes::InvalidKeyIvLength` (an opaque unit struct). -/
inductive InvalidKeyIvLength where
  | mk : InvalidKeyIvLength
deriving DecidableEq, Repr

/-- `Cbc::<Aes256, Pkcs7>::new_from_slices`: succeeds exactly when the key
has the AES-256 key size (32 bytes) and the IV has the block size
(16 bytes); any other sizes give `InvalidKeyIvLength`. -/
def new_from_slices (key iv : List Byte) : Except InvalidKeyIvLength Aes256Cbc :=
  if key.length = 32 ∧ iv.length = 16 then .ok ⟨key, iv⟩ else .error .mk

/-- `ApiClient` (src/lib.rs lines 60–63). -/
structure ApiClient where
  config : ApiClientConfig
  cipher : Aes256Cbc
deriving DecidableEq, Repr

/-- `ApiClient::new` (src/lib.rs lines 75–79): build the cipher from the
UTF-8 bytes of `app_secret` and `iv`, mapping a size failure to
`InvalidConfig`; on failure no client value exists. -/
def ApiClient.new (config : ApiClientConfig) : Except ApiClientError ApiClient :=
  match new_from_slices (strBytes config.app_secret) (strBytes config.iv) with
  | .ok cipher => .ok ⟨config, cipher⟩
  | .error _ => .error (.InvalidConfig "AES config error")

/-- `ApiClient::generate_signature` (src/lib.rs lines 85–95): concatenate
`app_id`, `nonce`, the decimal timestamp, `uri`, `body` and `app_secret`
with no separators (the `format!` at line 86), SHA-1 the UTF-8 bytes, and
render the digest as lowercase hex (the `format!("\x7b:x\x7d", …)` at
line 94, which prints every byte as two lowercase hex digits). -/
def ApiClient.generate_signature (self : ApiClient) (nonce : String) (timestamp : Int)
    (uri : String) (body : String) : String :=
  let sign_str := self.config.app_id ++ nonce ++ toString timestamp ++ uri ++ body ++
    self.config.app_secret
  hexEncode (sha1 (strBytes sign_str))

/-- The canonical body string of src/lib.rs lines 100–103: serialize the
body value if present, else the empty string (the `?` becomes the
`SerdeJsonError` arm of the caller). -/
def bodyStringOf (body_option : Option JValue) : Except SerdeJsonError String :=
  match body_option with
  | some body => to_string body
  | none => .ok ""

/-- The HTTP request `send` assembles (src/lib.rs lines 104–125): URL, the
fixed User-Agent, the four `HO-*` headers, and the JSON payload.  `bodyStr`
records the canonical body string the signature was computed over (the
`body_str` local of line 100). -/
structure BuiltRequest where
  method : String
  url : String
  userAgent : String
  hoAppId : String
  hoNonce : String
  hoTimestamp : String
  hoSignature : String
  payload : JValue
  bodyStr : String

/-- The request-building half of `send` (src/lib.rs lines 97–125).  The
nonce (line 98, `Uuid::new_v4`) and the clock instant (line 99, `Utc::now`)
are parameters; line 99 computes the timestamp through
`with_timezone(&Shanghai)` and `timestamp_millis`.  The reqwest transport
construction (lines 108–111) carries no data and is not modelled. -/
def buildRequest (self : ApiClient) (method : String) (uri : String)
    (body_option : Option JValue) (nonce : String) (nowUtcMillis : Int) :
    Except ApiClientError BuiltRequest :=
  let now := timestamp_millis (with_timezone (utcNowAt nowUtcMillis) shanghaiOffsetSeconds)
  match bodyStringOf body_option with
  | .error e => .error (.SerdeJsonError e)
  | .ok body_str =>
    let signature := self.generate_signature nonce now uri body_str
    let url := self.config.base_url ++ self.config.content ++ uri
    match body_option with
    | some body =>
      match to_string body with
      | .error e => .error (.SerdeJsonError e)
      | .ok data_str =>
        .ok ⟨method, url, "H-RUST-SDK-1.0.0", self.config.app_id, nonce, toString now,
          signature, .obj [("data", .str data_str)], body_str⟩
    | none =>
      .ok ⟨method, url, "H-RUST-SDK-1.0.0", self.config.app_id, nonce, toString now,
        signature, .obj [], body_str⟩

/-- An HTTP response as `send` observes it: status code and body text. -/
structure HttpResponse where
  status : Nat
  body : String
deriving DecidableEq, Repr

/-- `Response::error_for_status`: `Err` exactly for client-error (400–499)
and server-error (500–599) statuses, `Ok(self)` for every other status. -/
def error_for_status (status : Nat) : Except ReqwestError Unit :=
  if 400 ≤ status ∧ status < 600 then .error (.status status) else .ok ()

deriving instance DecidableEq for Except

/-- The observable result of one `send` call: either a Rust panic (from
`Result::unwrap_err` applied to an `Ok`) or the returned `Result`. -/
inductive SendOutcome where
  | panicked (msg : String) : SendOutcome
  | ret (r : Except ApiClientError String) : SendOutcome
deriving DecidableEq, Repr

/-- `Response::json::<ApiResult>()`: parse the body as JSON into
`ApiResult`.  reqwest wraps the underlying serde failure in its own
`reqwest::Error` (decode kind); that wrapped error is what the `?` at
line 132 converts through `From<reqwest::Error>`. -/
def response_json (body : String) : Except ReqwestError ApiResult :=
  match parseApiResult body with
  | some r => .ok r
  | none => .error .decode

/-- The response-processing half of `send` (src/lib.rs lines 127–136):
the status test at line 128 with `error_for_status().unwrap_err()` at
line 129 (a panic when `error_for_status` returns `Ok`, i.e. for non-200
statuses outside 400–599), then envelope parse, hex decode, decryption with
a clone of the cipher (line 134), and UTF-8 decoding. -/
def processResponse (self : ApiClient) (response : HttpResponse) : SendOutcome :=
  if response.status ≠ 200 then
    match error_for_status response.status with
    | .error e => .ret (.error (.ReqwestError e))
    | .ok _ => .panicked "called `Result::unwrap_err()` on an `Ok` value"
  else
    match response_json response.body with
    | .error e => .ret (.error (.ReqwestError e))
    | .ok api_result =>
      match hex_decode api_result.data with
      | .error e => .ret (.error (.HexError e))
      | .ok hex_ciphertext =>
        match (decrypt_vec (cloneCipher self.cipher) hex_ciphertext).1 with
        | .error e => .ret (.error (.AesError e))
        | .ok decrypted_data =>
          match string_from_utf8 decrypted_data with
          | .error e => .ret (.error (.Utf8Error e))
          | .ok decrypted_str => .ret (.ok decrypted_str)

/-- `ApiClient::send` (src/lib.rs lines 97–137) in state-passing form, with
the per-call nondeterminism explicit: the nonce (line 98), the clock
instant (line 99) and the network response (line 127) are parameters.
Because `send` takes `&self` and decrypts with a clone of the cipher, the
returned client is the unchanged receiver. -/
def sendSt (self : ApiClient) (method : String) (uri : String)
    (body_option : Option JValue) (nonce : String) (nowUtcMillis : Int)
    (response : HttpResponse) : SendOutcome × ApiClient :=
  match buildRequest self method uri body_option nonce nowUtcMillis with
  | .error e => (.ret (.error e), self)
  | .ok _ => (processResponse self response, self)

/-- The outcome component of `sendSt`. -/
def send (self : ApiClient) (method uri : String) (body_option : Option JValue)
    (nonce : String) (nowUtcMillis : Int) (response : HttpResponse) : SendOutcome :=
  (sendSt self method uri body_option nonce nowUtcMillis response).1

/-- A well-formed test configuration: 32-byte secret, 16-byte IV. -/
def cfgT : ApiClientConfig :=
  { app_id := "id1", app_secret := "0123456789abcdef0123456789abcdef",
    iv := "abcdefghijklmnop", base_url := "https://x", content := "/p" }

/-- The client value `ApiClient.new cfgT` constructs. -/
def clT : ApiClient := ⟨cfgT, ⟨strBytes cfgT.app_secret, strBytes cfgT.iv⟩⟩

/-- A configuration with an undersized secret. -/
def cfgBadT : ApiClientConfig :=
  { app_id := "id1", app_secret := "short", iv := "abcdefghijklmnop",
    base_url := "https://x", content := "/p" }

/-- C1 counterexample: at the UTC instant 0 the `HO-TIMESTAMP` header the
code produces is "0" — the plain UTC epoch milliseconds — not the
Shanghai-shifted "28800000" (8·3600·1000 ms) the claim requires. -/
theorem c1_counterexample :
    (buildRequest clT "GET" "/v1/ping" none "n" 0).map BuiltRequest.hoTimestamp = .ok "0" ∧
    ("0" : String) ≠ "28800000" := ⟨rfl, by decide⟩

/-- C1 (amended): the timestamp used in the `HO-TIMESTAMP` header and in the
signature is the plain current UTC time in milliseconds since the epoch; the
`with_timezone(&Shanghai)` conversion at line 99 does not change the value
`timestamp_millis` returns, because `timestamp_millis` reads the instant and
ignores the display offset. -/
theorem c1_timestamp_plain_utc (cl : ApiClient) (method uri : String)
    (body_option : Option JValue) (nonce : String) (t : Int) :
    timestamp_millis (with_timezone (utcNowAt t) shanghaiOffsetSeconds) = t ∧
    (buildRequest cl method uri body_option nonce t).map BuiltRequest.hoTimestamp =
      .ok (toString t) ∧
    (buildRequest cl method uri body_option nonce t).map BuiltRequest.hoSignature =
      .ok (cl.generate_signature nonce t uri
        (match body_option with | some v => renderJ v | none => "")) := by
  refine ⟨rfl, ?_, ?_⟩ <;> cases body_option <;> rfl

/-- C2 (code bug): for the non-200 status 201 `send` panics instead of
returning a transport error — `error_for_status` returns `Ok` on statuses
outside 400–599 and line 129 calls `unwrap_err` on that `Ok`.  For a status
in 400–599 (404 here) the claimed transport-error behaviour holds, and the
hex-decode and decryption steps are never reached. -/
theorem c2_non200_panics_or_errors :
    processResponse clT ⟨201, ""⟩ =
      .panicked "called `Result::unwrap_err()` on an `Ok` value" ∧
    processResponse clT ⟨404, ""⟩ = .ret (.error (.ReqwestError (.status 404))) := ⟨rfl, rfl⟩

/-- The signature as the spec words it: the lowercase hexadecimal rendering
of the SHA-1 digest of the UTF-8 bytes of the separator-free concatenation
`app_id + nonce + decimal timestamp + uri + body + app_secret`. -/
def signatureSpec (app_id nonce : String) (timestamp : Int) (uri body app_secret : String) :
    String :=
  hexEncode (sha1 (strBytes (app_id ++ nonce ++ toString timestamp ++ uri ++ body ++ app_secret)))

/-- C3: for every input tuple, `generate_signature` equals the lowercase-hex
SHA-1 of the separator-free concatenation in the claimed field order. -/
theorem c3_signature_formula (cl : ApiClient) (nonce : String) (timestamp : Int)
    (uri body : String) :
    cl.generate_signature nonce timestamp uri body =
      signatureSpec cl.config.app_id nonce timestamp uri body cl.config.app_secret := rfl

/-- C4: `new` succeeds exactly when the secret is 32 UTF-8 bytes (the
AES-256 key size) and the IV is 16 bytes (the block size); on any mismatch
it fails with `InvalidConfig` and no client value is produced. -/
theorem c4_new_config_sizes (config : ApiClientConfig) :
    ((strBytes config.app_secret).length = 32 ∧ (strBytes config.iv).length = 16 →
      ApiClient.new config = .ok ⟨config, ⟨strBytes config.app_secret, strBytes config.iv⟩⟩) ∧
    (¬((strBytes config.app_secret).length = 32 ∧ (strBytes config.iv).length = 16) →
      ApiClient.new config = .error (.InvalidConfig "AES config error")) := by
  constructor
  · intro h
    rw [ApiClient.new, new_from_slices, if_pos h]
  · intro h
    rw [ApiClient.new, new_from_slices, if_neg h]

/-- C4 witness: the good configuration constructs `clT`; the undersized one
fails with `InvalidConfig`. -/
theorem c4_witness :
    ApiClient.new cfgT = .ok clT ∧
    ApiClient.new cfgBadT = .error (.InvalidConfig "AES config error") :=
  ⟨(c4_new_config_sizes cfgT).1 (by decide), (c4_new_config_sizes cfgBadT).2 (by decide)⟩

/-- C5: with a body present, the canonical body string signed (`bodyStr`,
the `body_str` local of line 100) is byte-identical to the string stored
under the `data` key of the transmitted payload, and the signature is
computed over exactly that string — both are `to_string` of the same
`Value`. -/
theorem c5_signed_body_is_sent_body (cl : ApiClient) (method uri : String) (v : JValue)
    (nonce : String) (t : Int) :
    (buildRequest cl method uri (some v) nonce t).map
        (fun req => (req.payload, req.bodyStr, req.hoSignature)) =
      .ok (.obj [("data", .str (renderJ v))], renderJ v,
        cl.generate_signature nonce t uri (renderJ v)) := rfl

theorem new_ok_inv (cfg : ApiClientConfig) (cl : ApiClient)
    (h : ApiClient.new cfg = .ok cl) :
    cl = ⟨cfg, ⟨strBytes cfg.app_secret, strBytes cfg.iv⟩⟩ := by
  rw [ApiClient.new, new_from_slices] at h
  by_cases hc : (strBytes cfg.app_secret).length = 32 ∧ (strBytes cfg.iv).length = 16
  · rw [if_pos hc] at h
    have h2 : Except.ok (ε := ApiClientError)
        (⟨cfg, ⟨strBytes cfg.app_secret, strBytes cfg.iv⟩⟩ : ApiClient) = .ok cl := h
    injection h2 with h3
    exact h3.symm
  · rw [if_neg hc] at h
    have h2 : Except.error (α := ApiClient)
        (ApiClientError.InvalidConfig "AES config error") = .ok cl := h
    exact Except.noConfusion h2

/-- C6: round-trip — when the response has status 200 and its body is the
JSON envelope whose `data` field is the hex encoding of the
AES-256-CBC/PKCS7 encryption of the UTF-8 bytes of `p` under the configured
`(app_secret, iv)`, the response pipeline of `send` (envelope parse,
hex decode, decrypt, UTF-8 decode) returns exactly `Ok p`. -/
theorem c6_decrypt_roundtrip (cfg : ApiClientConfig) (cl : ApiClient) (p : String)
    (resp : HttpResponse)
    (hnew : ApiClient.new cfg = .ok cl)
    (hstatus : resp.status = 200)
    (hbody : resp.body = renderJ (.obj [("data", .str (hexEncode
      (encrypt_vec ⟨strBytes cfg.app_secret, strBytes cfg.iv⟩ (strBytes p)).1))])) :
    processResponse cl resp = .ret (.ok p) := by
  have hcl := new_ok_inv cfg cl hnew
  subst hcl
  have h1 : response_json resp.body = .ok ⟨hexEncode
      (encrypt_vec ⟨strBytes cfg.app_secret, strBytes cfg.iv⟩ (strBytes p)).1⟩ := by
    rw [response_json, hbody, parseApiResult_envelope _ (hexEncode_plain _)]
  have h2 : hex_decode (hexEncode
      (encrypt_vec ⟨strBytes cfg.app_secret, strBytes cfg.iv⟩ (strBytes p)).1) =
      .ok (encrypt_vec ⟨strBytes cfg.app_secret, strBytes cfg.iv⟩ (strBytes p)).1 :=
    hex_decode_encode _
  have h3 : (decrypt_vec (cloneCipher (⟨strBytes cfg.app_secret, strBytes cfg.iv⟩ : Aes256Cbc))
      (encrypt_vec ⟨strBytes cfg.app_secret, strBytes cfg.iv⟩ (strBytes p)).1).1 =
      .ok (strBytes p) := decrypt_vec_encrypt_vec _ _
  have h4 : string_from_utf8 (strBytes p) = .ok p := string_from_utf8_strBytes p
  rw [processResponse, if_neg (by rw [hstatus]; simp)]
  simp only [h1, h2, h3, h4]

/-- C6 witness: a concrete mock response carrying the encryption of "pong"
under the test configuration decrypts back to exactly "pong". -/
def respC6 : HttpResponse :=
  ⟨200, renderJ (.obj [("data", .str (hexEncode
    (encrypt_vec ⟨strBytes cfgT.app_secret, strBytes cfgT.iv⟩ (strBytes "pong")).1))])⟩

theorem c6_witness : processResponse clT respC6 = .ret (.ok "pong") :=
  c6_decrypt_roundtrip cfgT clT "pong" respC6 (by rfl) rfl rfl

/-- C7 counterexample: a 200 response whose body fails envelope
deserialization yields the transport kind `ReqwestError` (reqwest wraps the
serde failure inside `Response::json`), not the claimed `SerdeJsonError`. -/
theorem c7_counterexample :
    processResponse clT ⟨200, "not json"⟩ = .ret (.error (.ReqwestError .decode)) ∧
    SendOutcome.ret (.error (.ReqwestError .decode)) ≠
      .ret (.error (.SerdeJsonError .mk)) := ⟨rfl, by decide⟩

/-- C7 (amended): failures to deserialize the response envelope are returned
as the transport kind (`ReqwestError`, decode), because `Response::json`
wraps the serde error in `reqwest::Error`; and `send` never returns the
`SerdeJsonError` kind at all, since serializing a `serde_json::Value`
request body cannot fail.  The kinds remain distinct constructors. -/
theorem c7_envelope_decode_is_transport :
    (∀ (cl : ApiClient) (resp : HttpResponse), resp.status = 200 →
      parseApiResult resp.body = none →
      processResponse cl resp = .ret (.error (.ReqwestError .decode))) ∧
    (∀ (cl : ApiClient) (method uri : String) (body_option : Option JValue)
      (nonce : String) (t : Int) (resp : HttpResponse) (e : SerdeJsonError),
      send cl method uri body_option nonce t resp ≠ .ret (.error (.SerdeJsonError e))) := by
  constructor
  · intro cl resp hstatus hparse
    rw [processResponse, if_neg (by rw [hstatus]; simp), response_json, hparse]
  · intro cl method uri body_option nonce t resp e
    rw [send, sendSt]
    have hok : ∃ req, buildRequest cl method uri body_option nonce t = .ok req := by
      cases body_option with
      | none => exact ⟨_, rfl⟩
      | some v => exact ⟨_, rfl⟩
    obtain ⟨req, hreq⟩ := hok
    rw [hreq]
    show processResponse cl resp ≠ _
    rw [processResponse]
    by_cases hs : resp.status ≠ 200
    · rw [if_pos hs]
      cases h2 : error_for_status resp.status <;> simp
    · rw [if_neg hs]
      cases h2 : response_json resp.body with
      | error e2 => simp
      | ok ar =>
        cases h3 : hex_decode ar.data with
        | error e3 => simp [h3]
        | ok ct =>
          cases h4 : (decrypt_vec (cloneCipher cl.cipher) ct).1 with
          | error e4 => simp [h3, h4]
          | ok pt =>
            cases h5 : string_from_utf8 pt with
            | error e5 => simp [h3, h4, h5]
            | ok s2 => simp [h3, h4, h5]

/-- C7 witness: the amended behaviour at a concrete undecodable body. -/
theorem c7_witness :
    processResponse clT ⟨200, "not json"⟩ = .ret (.error (.ReqwestError .decode)) :=
  c7_envelope_decode_is_transport.1 clT ⟨200, "not json"⟩ rfl (by rfl)

/-- C8: whenever the 200 response envelope parses but its `data` field is
not valid hexadecimal, `send` returns the `HexError` kind carrying the
failure `hex::decode` reports — never a panic and never an empty-string
success. -/
theorem c8_bad_hex_is_decode_error (cl : ApiClient) (resp : HttpResponse) (d : String)
    (e : FromHexError)
    (hstatus : resp.status = 200)
    (henv : parseApiResult resp.body = some ⟨d⟩)
    (hhex : hex_decode d = .error e) :
    processResponse cl resp = .ret (.error (.HexError e)) := by
  rw [processResponse, if_neg (by rw [hstatus]; simp)]
  simp only [response_json, henv, hhex]

/-- C8 witness: the envelope whose `data` field is the non-hex string
"zz". -/
def respC8 : HttpResponse := ⟨200, "\x7b\"data\":\"zz\"\x7d"⟩

theorem c8_witness :
    processResponse clT respC8 = .ret (.error (.HexError (.invalidHexCharacter 'z' 0))) :=
  c8_bad_hex_is_decode_error clT respC8 "zz" (.invalidHexCharacter 'z' 0) rfl (by rfl) (by rfl)

/-- C9: `generate_signature` is deterministic — any two invocations with
identical `(app_id, nonce, timestamp, uri, body, app_secret)` inputs
produce the identical lowercase-hex SHA-1 digest string, even across
distinct client values. -/
theorem c9_signature_deterministic (cl1 cl2 : ApiClient) (n1 n2 : String) (t1 t2 : Int)
    (u1 u2 b1 b2 : String)
    (hid : cl1.config.app_id = cl2.config.app_id)
    (hsec : cl1.config.app_secret = cl2.config.app_secret)
    (hn : n1 = n2) (ht : t1 = t2) (hu : u1 = u2) (hb : b1 = b2) :
    cl1.generate_signature n1 t1 u1 b1 = cl2.generate_signature n2 t2 u2 b2 := by
  simp only [ApiClient.generate_signature, hid, hsec, hn, ht, hu, hb]

/-- C9 witness: determinism applied at one concrete input tuple. -/
theorem c9_witness :
    clT.generate_signature "n" 5 "/u" "b" = clT.generate_signature "n" 5 "/u" "b" :=
  c9_signature_deterministic clT clT "n" "n" 5 5 "/u" "/u" "b" "b" rfl rfl rfl rfl rfl rfl

/-- C10: `send` leaves the client unchanged — the state-passing embedding
returns the receiver itself (the method takes `&self`, and decryption runs
on `cloneCipher self.cipher`, a fresh copy whose advanced state is
discarded) — so a second call after any first call behaves exactly as an
independent call on the original client. -/
theorem c10_send_frame (cl : ApiClient) (m u : String) (b : Option JValue) (n : String)
    (t : Int) (r : HttpResponse) (m2 u2 : String) (b2 : Option JValue) (n2 : String)
    (t2 : Int) (r2 : HttpResponse) :
    (sendSt cl m u b n t r).2 = cl ∧
    cloneCipher cl.cipher = cl.cipher ∧
    (sendSt ((sendSt cl m u b n t r).2) m2 u2 b2 n2 t2 r2).1 =
      (sendSt cl m2 u2 b2 n2 t2 r2).1 := by
  have h : (sendSt cl m u b n t r).2 = cl := by
    rw [sendSt]
    cases h2 : buildRequest cl m u b n t <;> rfl
  exact ⟨h, rfl, by rw [h]⟩

end HoApi
